import Mathlib

/-!
Shallow embedding of the FiftyOne zoo dataset acquisition core
(`src/fiftyone/zoo/base.py`) and of the CIFAR-100 ingestion script
(`src/examples/datamodel/ingest_data.py`).

Filesystem paths are lists of components and the filesystem is the list
of existing paths (directories and files), plus the parsed content of any
COCO annotation file present.  External collaborators (the Transport
Adapter, the per-format downloaders, the Metadata Parser and the
Acquisition Orchestrator, none of which is under `src/`) are modelled
from the spec and carry a doc comment saying so.
-/

/-- A filesystem path, as a list of components. -/
abbrev FsPath := List String

/-- Decides whether `a` is a (not necessarily proper) ancestor of `b`,
that is whether the component list `a` starts the component list `b`. -/
def pathLe : FsPath → FsPath → Bool
  | [], _ => true
  | _ :: _, [] => false
  | a :: as, b :: bs => a == b && pathLe as bs

/-- Parsed content of a COCO annotation file: the class list and the
image list recorded in the JSON. -/
structure CocoAnno where
  classes : List String
  images : List String
deriving DecidableEq

/-- A filesystem state: the paths that exist (files and directories,
duplicates allowed and harmless), plus the parsed content of any COCO
annotation file present. -/
structure FS where
  nodes : List FsPath
  annos : List (FsPath × CocoAnno)
deriving DecidableEq

def FS.empty : FS := { nodes := [], annos := [] }

/-- Does the path exist on disk? -/
def FS.existsNode (fs : FS) (p : FsPath) : Bool :=
  fs.nodes.any (fun q => q == p)

/-- The nonempty prefixes of a path: the chain of directories that comes
into existence when the path is created together with its parents. -/
def pathChain : FsPath → List FsPath
  | [] => []
  | x :: rest => [x] :: (pathChain rest).map (fun q => x :: q)

/-- Create a path together with all its parent directories. -/
def FS.ensurePath (fs : FS) (p : FsPath) : FS :=
  { fs with nodes := pathChain p ++ fs.nodes }

/-- Create a list of paths, each together with its parent directories. -/
def FS.ensureAll (fs : FS) (ps : List FsPath) : FS :=
  { fs with nodes := (ps.map pathChain).flatten ++ fs.nodes }

/-- Create files at the given paths, whose parent directories already
exist. -/
def FS.addNodes (fs : FS) (ps : List FsPath) : FS :=
  { fs with nodes := ps ++ fs.nodes }

/-- Remove the subtree rooted at `p`: the node itself and everything
under it. -/
def FS.removeSubtree (fs : FS) (p : FsPath) : FS :=
  { nodes := fs.nodes.filter (fun q => !(pathLe p q)),
    annos := fs.annos.filter (fun qa => !(pathLe p qa.1)) }

/-- Rewrite one path under a rename of the subtree at `src` to `dst`. -/
def renamePath (src dst q : FsPath) : FsPath :=
  if pathLe src q then dst ++ q.drop src.length else q

/-- Rename the subtree rooted at `src` to `dst`; annotation contents move
with their files. -/
def FS.moveSubtree (fs : FS) (src dst : FsPath) : FS :=
  { nodes := fs.nodes.map (renamePath src dst),
    annos := fs.annos.map (fun qa => (renamePath src dst qa.1, qa.2)) }

/-- The names of the immediate children of directory `dir`
(`os.listdir`). -/
def FS.children (fs : FS) (dir : FsPath) : List String :=
  ((fs.nodes.filter (fun q => pathLe dir q && q != dir)).filterMap
    (fun q => q.get? dir.length)).dedup

/-- `q` is a file (a leaf): no other path lies strictly under it. -/
def FS.isLeaf (fs : FS) (q : FsPath) : Bool :=
  !(fs.nodes.any (fun r => pathLe q r && r != q))

/-- The number of distinct files lying strictly under directory `dir`: an
independent directory scan of laid-out data. -/
def FS.countFilesUnder (fs : FS) (dir : FsPath) : Nat :=
  ((fs.nodes.filter (fun q => pathLe dir q && q != dir && fs.isLeaf q)).dedup).length

/-- The error taxonomy of the acquisition core (§7 of the spec). -/
inductive ZooError where
  | notFound (p : FsPath)
  | manualDownloadRequired
  | unknownDataset
  | invalidSplit
deriving DecidableEq

/-- The on-disk layout type tags returned by the strategies
(`fiftyone.types`). -/
inductive DatasetType where
  | fiftyOneDataset
  | fiftyOneVideoLabelsDataset
  | cocoDetectionDataset
  | imageClassificationDirectoryTree
  | bddDataset
  | videoClassificationDirectoryTree
deriving DecidableEq

/-- The `(dataset_type, num_samples, classes)` triple every
`_download_and_prepare` returns. -/
abbrev ZooResult := DatasetType × Nat × Option (List String)

/-- One Transport Adapter invocation, recorded so that theorems can count
retrievals. -/
inductive TransportOp where
  | googleDriveDownload (id : String)
  | extractZip (p : FsPath)
  | moveEntry (src dst : FsPath)
  | etauMoveDir (src dst : FsPath)
  | etauMoveFile (src dst : FsPath)
  | cocoSplitDownload (year split : String)
  | lfwDownload
  | bddWrangle (src dst : FsPath)
  | hmdbDownload (fold : Nat)
  | ucfDownload (fold : Nat)
deriving DecidableEq

/-- Transport operations that fetch remote (or manually supplied) source
data, as opposed to local extract and move steps. -/
def TransportOp.isRetrieval : TransportOp → Bool
  | .googleDriveDownload _ => true
  | .cocoSplitDownload _ _ => true
  | .lfwDownload => true
  | .bddWrangle _ _ => true
  | .hmdbDownload _ => true
  | .ucfDownload _ => true
  | _ => false

/-- Modelled from the spec: the content each external dataset source
serves.  The spec treats retrieval as a black box (§6); this structure
fixes, per dataset, the data a successful retrieval materializes. -/
structure Remote where
  quickstartZip : List FsPath
  quickstartVideoZip : List FsPath
  coco2014Anno : String → CocoAnno
  coco2017Anno : String → CocoAnno
  lfwTree : String → List (String × List String)
  bddTree : String → List (String × List String)
  hmdbTree : String → List (String × List String)
  ucfTree : String → List (String × List String)

/-- Modelled from the spec: Transport Adapter `download(url_or_id,
dest_path)` (§6) — `eta.core.web.download_google_drive_file` lives
outside `src/`.  Fetches the archive to `path`. -/
def download_google_drive_file (id : String) (path : FsPath) (fs : FS) :
    FS × List TransportOp :=
  (fs.ensurePath path, [.googleDriveDownload id])

/-- Modelled from the spec: Transport Adapter `extract_archive` (§6) —
`eta.core.utils.extract_zip` lives outside `src/`.  Extracts the archive
next to itself, materializing `contents` (paths relative to the archive's
directory) and deleting the archive (`delete_zip=True`). -/
def extract_zip (path : FsPath) (contents : List FsPath) (fs : FS) :
    FS × List TransportOp :=
  ((fs.removeSubtree path).ensureAll (contents.map (fun c => path.dropLast ++ c)),
   [.extractZip path])

/-- Modelled from the spec: Transport Adapter `move_dir(src, dst)` (§6) —
`eta.core.utils.move_dir` lives outside `src/`.  Moves the whole
directory `src` to `dst`, creating parents. -/
def etau_move_dir (fs : FS) (src dst : FsPath) : FS × TransportOp :=
  ((fs.ensurePath dst).moveSubtree src dst, .etauMoveDir src dst)

/-- Modelled from the spec: Transport Adapter `move_file(src, dst)` (§6)
— `eta.core.utils.move_file` lives outside `src/`.  Moves the file `src`
to `dst`, creating the destination's parents. -/
def etau_move_file (fs : FS) (src dst : FsPath) : FS × TransportOp :=
  ((fs.ensurePath dst.dropLast).moveSubtree src dst, .etauMoveFile src dst)

/-- The directory tree a whole-bundle download lays out: one directory
per split, one subdirectory per class, one file per sample. -/
def bundlePaths (base : FsPath) (splits : List String)
    (tree : String → List (String × List String)) : List FsPath :=
  (splits.map (fun s =>
    (base ++ [s]) ::
      ((tree s).map (fun ct =>
        (base ++ [s, ct.1]) :: ct.2.map (fun f => base ++ [s, ct.1, f]))).flatten)).flatten

/-- Modelled from the spec: `fiftyone.utils.lfw.download_lfw_dataset`
(repository code not under `src/`) — a whole-bundle retrieval that
writes every split's directory tree under `dataset_dir` (§4.1);
`cleanup=False` leaves the scratch area untouched. -/
def download_lfw_dataset (remote : Remote) (dataset_dir _scratch_dir : FsPath)
    (fs : FS) : FS × List TransportOp :=
  (fs.ensureAll (bundlePaths dataset_dir ["test", "train"] remote.lfwTree),
   [.lfwDownload])

/-- Modelled from the spec: `fiftyone.utils.hmdb51.download_hmdb51_dataset`
(repository code not under `src/`) — a whole-bundle retrieval that
writes every split's directory tree under `dataset_dir` (§4.1). -/
def download_hmdb51_dataset (remote : Remote) (fold : Nat)
    (dataset_dir _scratch_dir : FsPath) (fs : FS) : FS × List TransportOp :=
  (fs.ensureAll (bundlePaths dataset_dir ["train", "test", "other"] remote.hmdbTree),
   [.hmdbDownload fold])

/-- Modelled from the spec: `fiftyone.utils.ucf101.download_ucf101_dataset`
(repository code not under `src/`) — a whole-bundle retrieval that
writes every split's directory tree under `dataset_dir` (§4.1). -/
def download_ucf101_dataset (remote : Remote) (fold : Nat)
    (dataset_dir _scratch_dir : FsPath) (fs : FS) : FS × List TransportOp :=
  (fs.ensureAll (bundlePaths dataset_dir ["train", "test"] remote.ucfTree),
   [.ucfDownload fold])

/-- Modelled from the spec: `fiftyone.utils.bdd.wrangle_bdd100k_download`
(repository code not under `src/`) — requires the manually downloaded
`bdd100k/` bundle (its `labels` folder) inside `bdd100k_dir`; raises
`ManualDownloadRequiredError` when it is absent (§7), otherwise lays out
every split under `dataset_dir`, moving or copying per `copy_files`. -/
def wrangle_bdd100k_download (remote : Remote) (bdd100k_dir dataset_dir : FsPath)
    (copy_files : Bool) (fs : FS) : Except ZooError (FS × List TransportOp) :=
  if fs.existsNode (bdd100k_dir ++ ["labels"]) then
    let fs := if copy_files then fs else fs.removeSubtree (bdd100k_dir ++ ["labels"])
    .ok (fs.ensureAll (bundlePaths dataset_dir ["train", "validation", "test"] remote.bddTree),
         [.bddWrangle bdd100k_dir dataset_dir])
  else
    .error .manualDownloadRequired

/-- Modelled from the spec: `fiftyone.utils.coco.download_coco_dataset_split`
(repository code not under `src/`) — downloads one split's images and its
annotation file into scratch space and returns their locations; the
images directory holds exactly the images the annotation file lists. -/
def download_coco_dataset_split (anno : CocoAnno) (scratch_dir : FsPath)
    (split year : String) (fs : FS) : FS × List TransportOp × FsPath × FsPath :=
  let images_dir := scratch_dir ++ ["images-" ++ split]
  let anno_path := scratch_dir ++ ["labels-" ++ split ++ ".json"]
  let fs := fs.ensurePath images_dir
  let fs := fs.addNodes (anno.images.map (fun i => images_dir ++ [i]))
  let fs := fs.ensurePath anno_path
  let fs := { fs with annos := (anno_path, anno) :: fs.annos }
  (fs, [.cocoSplitDownload year split], images_dir, anno_path)

/-- Modelled from the spec:
`fiftyone.utils.coco.load_coco_detection_annotations` (repository code
not under `src/`) — parses the labels JSON at `path` into its class and
image lists, failing when the file is absent. -/
def load_coco_detection_annotations (fs : FS) (path : FsPath) :
    Except ZooError CocoAnno :=
  match fs.annos.find? (fun qa => qa.1 == path) with
  | some qa => .ok qa.2
  | none => .error (.notFound path)

/-- Modelled from the spec: Metadata Parser `get_num_samples(dir)` (§6) —
the importers live in repository code not under `src/`.  Counts the
sample files under the directory, failing when it does not exist. -/
def importerNumSamples (fs : FS) (dir : FsPath) : Except ZooError Nat :=
  if fs.existsNode dir then .ok (fs.countFilesUnder dir) else .error (.notFound dir)

/-- Modelled from the spec: Metadata Parser `get_classes(dir)` (§6) —
reads the class names laid out under the directory, failing when it does
not exist. -/
def importerClasses (fs : FS) (dir : FsPath) : Except ZooError (List String) :=
  if fs.existsNode dir then .ok (fs.children dir) else .error (.notFound dir)

/-- Modelled from the spec: `FiftyOneDatasetImporter.get_num_samples`. -/
def FiftyOneDatasetImporter.get_num_samples : FS → FsPath → Except ZooError Nat :=
  importerNumSamples

/-- Modelled from the spec: `FiftyOneDatasetImporter.get_classes`. -/
def FiftyOneDatasetImporter.get_classes : FS → FsPath → Except ZooError (List String) :=
  importerClasses

/-- Modelled from the spec:
`FiftyOneVideoLabelsDatasetImporter.get_num_samples`. -/
def FiftyOneVideoLabelsDatasetImporter.get_num_samples :
    FS → FsPath → Except ZooError Nat :=
  importerNumSamples

/-- Modelled from the spec:
`ImageClassificationDirectoryTreeImporter.get_num_samples`. -/
def ImageClassificationDirectoryTreeImporter.get_num_samples :
    FS → FsPath → Except ZooError Nat :=
  importerNumSamples

/-- Modelled from the spec:
`ImageClassificationDirectoryTreeImporter.get_classes`. -/
def ImageClassificationDirectoryTreeImporter.get_classes :
    FS → FsPath → Except ZooError (List String) :=
  importerClasses

/-- Modelled from the spec:
`VideoClassificationDirectoryTreeImporter.get_num_samples`. -/
def VideoClassificationDirectoryTreeImporter.get_num_samples :
    FS → FsPath → Except ZooError Nat :=
  importerNumSamples

/-- Modelled from the spec:
`VideoClassificationDirectoryTreeImporter.get_classes`. -/
def VideoClassificationDirectoryTreeImporter.get_classes :
    FS → FsPath → Except ZooError (List String) :=
  importerClasses

/-- Modelled from the spec: `BDDDatasetImporter.get_num_samples`. -/
def BDDDatasetImporter.get_num_samples : FS → FsPath → Except ZooError Nat :=
  importerNumSamples

/-- Python's `sorted` on a list of strings (ascending order). -/
def pysorted (l : List String) : List String :=
  l.insertionSort (fun a b => a ≤ b)

/-- Modelled from the spec: `shutil.move` for one directory entry — when
`dst` is an existing directory the entry keeps its name inside `dst`,
otherwise the entry is renamed to `dst`. -/
def shutil.move (fs : FS) (src dst : FsPath) : FS × TransportOp :=
  let real_dst :=
    if fs.existsNode dst then
      match src.getLast? with
      | some f => dst ++ [f]
      | none => dst
    else dst
  (fs.moveSubtree src real_dst, .moveEntry src dst)

/-- Embeds `_move_dir` from `base.py`: move every entry of `src` into
`dst`, leaving the directory `src` itself in place.  The entry list is
computed once, up front, as in the source. -/
def _move_dir (fs : FS) (src dst : FsPath) : FS × List TransportOp :=
  (fs.children src).foldl
    (fun acc f =>
      let m := shutil.move acc.1 (src ++ [f]) dst
      (m.1, acc.2 ++ [m.2]))
    (fs, [])

def quickstartGdriveId : String := "1UWTlFmdq8H-wdJHxVsAKpXBilY1CWwm_"

def quickstartVideoGdriveId : String := "1O-WMjtiBBMXGEHnnus6y2nSlJu8pY5vo"

/-- Embeds `QuickstartDataset._download_and_prepare`. -/
def QuickstartDataset.download_and_prepare (remote : Remote) (fs : FS)
    (dataset_dir scratch_dir : FsPath) :
    FS × List TransportOp × Except ZooError ZooResult :=
  -- Download dataset
  let tmp_zip_path := scratch_dir ++ ["dataset.zip"]
  let d := download_google_drive_file quickstartGdriveId tmp_zip_path fs
  -- Extract zip
  let e := extract_zip tmp_zip_path remote.quickstartZip d.1
  let m := _move_dir e.1 (scratch_dir ++ ["quickstart"]) dataset_dir
  let fs := m.1
  let ops := d.2 ++ e.2 ++ m.2
  -- Get metadata
  match FiftyOneDatasetImporter.get_classes fs dataset_dir with
  | .error err => (fs, ops, .error err)
  | .ok classes =>
    match FiftyOneDatasetImporter.get_num_samples fs dataset_dir with
    | .error err => (fs, ops, .error err)
    | .ok num_samples =>
      (fs, ops, .ok (.fiftyOneDataset, num_samples, some classes))

/-- Embeds `VideoQuickstartDataset._download_and_prepare`. -/
def VideoQuickstartDataset.download_and_prepare (remote : Remote) (fs : FS)
    (dataset_dir scratch_dir : FsPath) :
    FS × List TransportOp × Except ZooError ZooResult :=
  -- Download dataset
  let tmp_zip_path := scratch_dir ++ ["dataset.zip"]
  let d := download_google_drive_file quickstartVideoGdriveId tmp_zip_path fs
  -- Extract zip
  let e := extract_zip tmp_zip_path remote.quickstartVideoZip d.1
  let m := _move_dir e.1 (scratch_dir ++ ["quickstart-video"]) dataset_dir
  let fs := m.1
  let ops := d.2 ++ e.2 ++ m.2
  -- Get metadata
  match FiftyOneVideoLabelsDatasetImporter.get_num_samples fs dataset_dir with
  | .error err => (fs, ops, .error err)
  | .ok num_samples =>
    (fs, ops, .ok (.fiftyOneVideoLabelsDataset, num_samples, none))

/-- Shared body of the two COCO strategies; the two source methods are
identical except for the year they pass to the downloader. -/
def cocoDownloadAndPrepareCommon (anno : CocoAnno) (year : String) (fs : FS)
    (dataset_dir scratch_dir : FsPath) (split : String) :
    FS × List TransportOp × Except ZooError ZooResult :=
  -- Download dataset
  let r := download_coco_dataset_split anno scratch_dir split year fs
  let images_dir := r.2.2.1
  let anno_path := r.2.2.2
  -- Build dataset
  let data_dir := dataset_dir ++ ["data"]
  let labels_path := dataset_dir ++ ["labels.json"]
  let m1 := etau_move_dir r.1 images_dir data_dir
  let m2 := etau_move_file m1.1 anno_path labels_path
  let fs := m2.1
  let ops := r.2.1 ++ [m1.2, m2.2]
  -- Parse metadata
  match load_coco_detection_annotations fs labels_path with
  | .error err => (fs, ops, .error err)
  | .ok a =>
    (fs, ops, .ok (.cocoDetectionDataset, a.images.length, some a.classes))

/-- Embeds `COCO2014Dataset._download_and_prepare`. -/
def COCO2014Dataset.download_and_prepare (remote : Remote) (fs : FS)
    (dataset_dir scratch_dir : FsPath) (split : String) :
    FS × List TransportOp × Except ZooError ZooResult :=
  cocoDownloadAndPrepareCommon (remote.coco2014Anno split) ("2014") fs
    dataset_dir scratch_dir split

/-- Embeds `COCO2017Dataset._download_and_prepare`. -/
def COCO2017Dataset.download_and_prepare (remote : Remote) (fs : FS)
    (dataset_dir scratch_dir : FsPath) (split : String) :
    FS × List TransportOp × Except ZooError ZooResult :=
  cocoDownloadAndPrepareCommon (remote.coco2017Anno split) ("2017") fs
    dataset_dir scratch_dir split

/-- Embeds `LabeledFacesInTheWildDataset._download_and_prepare`. -/
def LabeledFacesInTheWildDataset.download_and_prepare (remote : Remote) (fs : FS)
    (dataset_dir _scratch_dir : FsPath) (split : String) :
    FS × List TransportOp × Except ZooError ZooResult :=
  -- LFW is distributed as a single download that contains all splits, so
  -- we remove the split from `dataset_dir` and download the whole dataset
  -- (only if necessary)
  let dataset_dir := dataset_dir.dropLast
  let split_dir := dataset_dir ++ [split]
  let w :=
    if fs.existsNode split_dir then (fs, ([] : List TransportOp))
    else download_lfw_dataset remote dataset_dir _scratch_dir fs
  let fs := w.1
  let ops := w.2
  -- Get metadata
  match ImageClassificationDirectoryTreeImporter.get_classes fs (dataset_dir ++ ["train"]) with
  | .error err => (fs, ops, .error err)
  | .ok ctrain =>
    match ImageClassificationDirectoryTreeImporter.get_classes fs (dataset_dir ++ ["test"]) with
    | .error err => (fs, ops, .error err)
    | .ok ctest =>
      let classes := pysorted (ctrain ++ ctest)
      match ImageClassificationDirectoryTreeImporter.get_num_samples fs split_dir with
      | .error err => (fs, ops, .error err)
      | .ok num_samples =>
        (fs, ops, .ok (.imageClassificationDirectoryTree, num_samples, some classes))

/-- Embeds `CityscapesDataset._download_and_prepare`.  In the source the
body of the cache-miss branch is a bare string literal — the call to
`foucs.parse_cityscapes_dataset` is commented out, and so is the import
of `fiftyone.utils.cityscapes` — so a cache miss performs no retrieval at
all; the embedding reproduces that no-op faithfully. -/
def CityscapesDataset.download_and_prepare
    (_fine_annos _coarse_annos _person_annos : Bool) (fs : FS)
    (dataset_dir _scratch_dir : FsPath) (split : String) :
    FS × List TransportOp × Except ZooError ZooResult :=
  -- Cityscapes is distributed as a single download that contains all
  -- splits (which must be manually downloaded); the source removes the
  -- split from `dataset_dir`, but its download branch is a no-op.
  let dataset_dir := dataset_dir.dropLast
  let split_dir := dataset_dir ++ [split]
  let w :=
    if fs.existsNode split_dir then (fs, ([] : List TransportOp))
    else (fs, [])
  let fs := w.1
  let ops := w.2
  -- Get metadata
  match FiftyOneDatasetImporter.get_classes fs (dataset_dir ++ ["train"]) with
  | .error err => (fs, ops, .error err)
  | .ok ctrain =>
    match FiftyOneDatasetImporter.get_classes fs (dataset_dir ++ ["test"]) with
    | .error err => (fs, ops, .error err)
    | .ok ctest =>
      match FiftyOneDatasetImporter.get_classes fs (dataset_dir ++ ["validation"]) with
      | .error err => (fs, ops, .error err)
      | .ok cval =>
        let classes := pysorted (ctrain ++ ctest ++ cval)
        match FiftyOneDatasetImporter.get_num_samples fs split_dir with
        | .error err => (fs, ops, .error err)
        | .ok num_samples =>
          (fs, ops, .ok (.fiftyOneDataset, num_samples, some classes))

/-- Embeds `BDD100KDataset._download_and_prepare`. -/
def BDD100KDataset.download_and_prepare (source_dir : Option FsPath)
    (copy_files : Bool) (remote : Remote) (fs : FS)
    (dataset_dir scratch_dir : FsPath) (split : String) :
    FS × List TransportOp × Except ZooError ZooResult :=
  -- BDD100k must be manually downloaded by the user and placed in
  -- `source_dir` or `scratch_dir`.  The download contains all splits, so
  -- we remove the split from `dataset_dir` and lay out the whole dataset
  -- (only if necessary)
  let dataset_dir := dataset_dir.dropLast
  let split_dir := dataset_dir ++ [split]
  let step : Except ZooError (FS × List TransportOp) :=
    if fs.existsNode split_dir then .ok (fs, [])
    else
      let bdd100k_dir := source_dir.getD scratch_dir
      wrangle_bdd100k_download remote bdd100k_dir dataset_dir copy_files fs
  match step with
  | .error err => (fs, [], .error err)
  | .ok w =>
    let fs := w.1
    let ops := w.2
    -- Get metadata
    match BDDDatasetImporter.get_num_samples fs split_dir with
    | .error err => (fs, ops, .error err)
    | .ok num_samples => (fs, ops, .ok (.bddDataset, num_samples, none))

/-- Embeds `HMDB51Dataset._download_and_prepare`. -/
def HMDB51Dataset.download_and_prepare (fold : Nat) (remote : Remote) (fs : FS)
    (dataset_dir scratch_dir : FsPath) (split : String) :
    FS × List TransportOp × Except ZooError ZooResult :=
  -- HMDB51 is distributed as a single download that contains all splits,
  -- so we remove the split from `dataset_dir` and download the whole
  -- dataset (only if necessary)
  let dataset_dir := dataset_dir.dropLast
  let split_dir := dataset_dir ++ [split]
  let w :=
    if fs.existsNode split_dir then (fs, ([] : List TransportOp))
    else download_hmdb51_dataset remote fold dataset_dir scratch_dir fs
  let fs := w.1
  let ops := w.2
  -- Get metadata
  match VideoClassificationDirectoryTreeImporter.get_classes fs split_dir with
  | .error err => (fs, ops, .error err)
  | .ok classes =>
    match VideoClassificationDirectoryTreeImporter.get_num_samples fs split_dir with
    | .error err => (fs, ops, .error err)
    | .ok num_samples =>
      (fs, ops, .ok (.videoClassificationDirectoryTree, num_samples, some classes))

/-- Embeds `UCF101Dataset._download_and_prepare`. -/
def UCF101Dataset.download_and_prepare (fold : Nat) (remote : Remote) (fs : FS)
    (dataset_dir scratch_dir : FsPath) (split : String) :
    FS × List TransportOp × Except ZooError ZooResult :=
  -- UCF101 is distributed as a single download that contains all splits,
  -- so we remove the split from `dataset_dir` and download the whole
  -- dataset (only if necessary)
  let dataset_dir := dataset_dir.dropLast
  let split_dir := dataset_dir ++ [split]
  let w :=
    if fs.existsNode split_dir then (fs, ([] : List TransportOp))
    else download_ucf101_dataset remote fold dataset_dir scratch_dir fs
  let fs := w.1
  let ops := w.2
  -- Get metadata
  match VideoClassificationDirectoryTreeImporter.get_classes fs split_dir with
  | .error err => (fs, ops, .error err)
  | .ok classes =>
    match VideoClassificationDirectoryTreeImporter.get_num_samples fs split_dir with
    | .error err => (fs, ops, .error err)
    | .ok num_samples =>
      (fs, ops, .ok (.videoClassificationDirectoryTree, num_samples, some classes))

/-- The nine concrete strategy classes, each carrying its own
construction parameters (no shared mutable state, §9). -/
inductive ZooDatasetStrategy where
  | quickstart
  | quickstartVideo
  | coco2014
  | coco2017
  | lfw
  | cityscapes (fine_annos coarse_annos person_annos : Bool)
  | bdd100k (source_dir : Option FsPath) (copy_files : Bool)
  | hmdb51 (fold : Nat)
  | ucf101 (fold : Nat)
deriving DecidableEq

/-- Embeds the `name` property of each strategy class. -/
def ZooDatasetStrategy.name : ZooDatasetStrategy → String
  | .quickstart => "quickstart"
  | .quickstartVideo => "quickstart-video"
  | .coco2014 => "coco-2014-segmentation"
  | .coco2017 => "coco-2017-segmentation"
  | .lfw => "lfw"
  | .cityscapes _ _ _ => "cityscapes"
  | .bdd100k _ _ => "bdd100k"
  | .hmdb51 _ => "hmdb51"
  | .ucf101 _ => "ucf101"

/-- Embeds the `supported_splits` property of each strategy class
(`none` for the split-less quickstart datasets). -/
def ZooDatasetStrategy.supported_splits : ZooDatasetStrategy → Option (List String)
  | .quickstart => none
  | .quickstartVideo => none
  | .coco2014 => some ["test", "train", "validation"]
  | .coco2017 => some ["test", "train", "validation"]
  | .lfw => some ["test", "train"]
  | .cityscapes _ _ _ => some ["train", "test", "validation"]
  | .bdd100k _ _ => some ["train", "validation", "test"]
  | .hmdb51 _ => some ["train", "test", "other"]
  | .ucf101 _ => some ["train", "test"]

/-- Dispatches `_download_and_prepare` to the concrete strategy class. -/
def ZooDatasetStrategy.download_and_prepare (st : ZooDatasetStrategy)
    (remote : Remote) (fs : FS) (dataset_dir scratch_dir : FsPath)
    (split : Option String) : FS × List TransportOp × Except ZooError ZooResult :=
  match st, split with
  | .quickstart, _ =>
    QuickstartDataset.download_and_prepare remote fs dataset_dir scratch_dir
  | .quickstartVideo, _ =>
    VideoQuickstartDataset.download_and_prepare remote fs dataset_dir scratch_dir
  | .coco2014, some s =>
    COCO2014Dataset.download_and_prepare remote fs dataset_dir scratch_dir s
  | .coco2017, some s =>
    COCO2017Dataset.download_and_prepare remote fs dataset_dir scratch_dir s
  | .lfw, some s =>
    LabeledFacesInTheWildDataset.download_and_prepare remote fs dataset_dir scratch_dir s
  | .cityscapes a b c, some s =>
    CityscapesDataset.download_and_prepare a b c fs dataset_dir scratch_dir s
  | .bdd100k sd cf, some s =>
    BDD100KDataset.download_and_prepare sd cf remote fs dataset_dir scratch_dir s
  | .hmdb51 f, some s =>
    HMDB51Dataset.download_and_prepare f remote fs dataset_dir scratch_dir s
  | .ucf101 f, some s =>
    UCF101Dataset.download_and_prepare f remote fs dataset_dir scratch_dir s
  | _, none => (fs, [], .error .invalidSplit)

/-- Embeds `AVAILABLE_DATASETS`, in source order; each name maps to its
strategy class instantiated with default construction parameters, which
is how the registry's classes are instantiated on lookup. -/
def AVAILABLE_DATASETS : List (String × ZooDatasetStrategy) :=
  [("quickstart", .quickstart),
   ("quickstart-video", .quickstartVideo),
   ("coco-2014-segmentation", .coco2014),
   ("coco-2017-segmentation", .coco2017),
   ("lfw", .lfw),
   ("cityscapes", .cityscapes false false false),
   ("bdd100k", .bdd100k none true),
   ("hmdb51", .hmdb51 1),
   ("ucf101", .ucf101 1)]

/-- Registry lookup: `get(name)`. -/
def getZooDataset (name : String) : Option ZooDatasetStrategy :=
  AVAILABLE_DATASETS.lookup name

/-- The root under which every dataset directory lives. -/
def zooRoot : String := "zoo"

/-- The dataset directory handed to a strategy: `root/name/split` for
split datasets, `root/name` for split-less ones. -/
def datasetDirFor (name : String) (split : Option String) : FsPath :=
  [zooRoot, name] ++ split.toList

/-- The scratch staging directory, reused across calls (§5). -/
def scratchDirFor (name : String) : FsPath :=
  [zooRoot, name, "tmp-download"]

/-- The Orchestrator's split validation: a split-less dataset takes no
split, a split dataset takes one of its supported splits. -/
def validSplit (st : ZooDatasetStrategy) (split : Option String) : Bool :=
  match st.supported_splits, split with
  | none, none => true
  | none, some _ => false
  | some _, none => false
  | some ss, some s => ss.contains s

/-- Modelled from the spec: the Acquisition Orchestrator (§2, §4.3) —
`fiftyone/zoo/__init__.py` is repository code not under `src/`.  Looks
the strategy up, validates the split, resolves the cache state at
split granularity (a split directory's existence is the cache key, §3),
invokes the strategy's retrieval+parse step only on a miss (returning
`none` on a hit), and ensures the scratch directory exists before
delegating. -/
def acquire (remote : Remote) (name : String) (split : Option String)
    (fs : FS) : FS × List TransportOp × Except ZooError (Option ZooResult) :=
  match getZooDataset name with
  | none => (fs, [], .error .unknownDataset)
  | some st =>
    if validSplit st split then
      let dataset_dir := datasetDirFor name split
      if fs.existsNode dataset_dir then (fs, [], .ok none)
      else
        let fs := fs.ensurePath (scratchDirFor name)
        let r := st.download_and_prepare remote fs dataset_dir (scratchDirFor name) split
        (r.1, r.2.1, r.2.2.map some)
    else (fs, [], .error .invalidSplit)

/-- Cold initial disk states used in the sequencing theorems: empty,
except that the manual-download dataset has its bundle staged in the
scratch directory, as its documentation instructs. -/
def initFS (name : String) : FS :=
  if name == "bdd100k" then
    FS.empty.ensurePath [zooRoot, name, "tmp-download", "labels"]
  else FS.empty

/-- A concrete remote used to instantiate witnesses. -/
def remote0 : Remote :=
  { quickstartZip := [["quickstart", "data", "img1.png"], ["quickstart", "metadata.json"]],
    quickstartVideoZip := [["quickstart-video", "data", "v1.mp4"]],
    coco2014Anno := fun _ => { classes := ["cat", "dog"], images := ["i1.jpg", "i2.jpg"] },
    coco2017Anno := fun _ => { classes := ["cat"], images := ["j1.jpg"] },
    lfwTree := fun s => if s == "train" then [("alice", ["a1.jpg"])] else [("bob", ["b1.jpg"])],
    bddTree := fun _ => [("data", ["x.jpg"])],
    hmdbTree := fun _ => [("run", ["v1.avi"])],
    ucfTree := fun _ => [("jump", ["w1.avi"])] }

/-!  Embedding of `src/examples/datamodel/ingest_data.py`. -/

/-- A sample as built by the ingestion script. -/
structure ImageSample where
  filepath : FsPath
  tags : List String
deriving DecidableEq

/-- The `partitions` parameter of the ingestion script. -/
def cifarPartitions : List String := ["train", "test"]

/-- Embeds the `samples` list comprehension of `ingest_data.py` for one
partition: one `ImageSample` per key of the partition's fine-labels JSON
mapping, tagged with the partition name and — for the entries where the
random draw exceeds 0.7 — a second `rand` tag.  The random stream is
modelled as a Boolean oracle indexed by draw position, `off` being the
number of draws consumed by earlier partitions. -/
def cifarSamples (data_dir : FsPath) (partition : String)
    (fine_labels : List String) (rand : Nat → Bool) (off : Nat) :
    List ImageSample :=
  fine_labels.enum.map (fun ir =>
    { filepath := data_dir ++ [ir.2],
      tags := [partition] ++ (if rand (off + ir.1) then ["rand"] else []) })

/-- Embeds the ingestion loop of `ingest_data.py`: for each partition in
order, build its samples and add them to the dataset. -/
def ingest_data (data_dir : FsPath) (fine : String → List String)
    (rand : Nat → Bool) : List ImageSample :=
  (cifarPartitions.foldl
    (fun acc partition =>
      let samples := cifarSamples data_dir partition (fine partition) rand acc.2
      (acc.1 ++ samples, acc.2 + (fine partition).length))
    (([] : List ImageSample), 0)).1

/-- Equality on `Except` results is decidable, so that concrete runs can
be evaluated inside closed theorems. -/
instance exceptDecEq {e a : Type} [DecidableEq e] [DecidableEq a] :
    DecidableEq (Except e a) := fun x y =>
  match x, y with
  | .error u, .error v =>
    if h : u = v then isTrue (by rw [h])
    else isFalse (by intro hh; cases hh; exact h rfl)
  | .ok u, .ok v =>
    if h : u = v then isTrue (by rw [h])
    else isFalse (by intro hh; cases hh; exact h rfl)
  | .error _, .ok _ => isFalse (by intro hh; cases hh)
  | .ok _, .error _ => isFalse (by intro hh; cases hh)

/-- The Transport Adapter operation lists of two `acquire` calls run in
sequence for the same dataset and split. -/
def acquireTwiceOps (remote : Remote) (name : String) (split : Option String)
    (fs : FS) : List TransportOp × List TransportOp :=
  let a1 := acquire remote name split fs
  (a1.2.1, (acquire remote name split a1.1).2.1)

/-- The filesystem evolution of `_move_dir` over an explicit entry list
(the operation log dropped). -/
def moveEntries (fs : FS) (L : List String) (src dst : FsPath) : FS :=
  L.foldl (fun a f => (shutil.move a (src ++ [f]) dst).1) fs

/-- A concrete filesystem used to instantiate the `_move_dir` witness: a
directory `s` with entries `a` and `b` (the latter containing a file),
next to an existing empty directory `d`. -/
def moveDirWitnessFS : FS :=
  { nodes := [["s"], ["s", "a"], ["s", "b", "x"], ["s", "b"], ["d"]],
    annos := [] }

/-- A disk state on which the COCO-2014 train split's data is already
fully present. -/
def cocoWarmFS : FS :=
  FS.empty.ensurePath [zooRoot, "coco-2014-segmentation", "train", "data", "img1.png"]

/-- A disk state on which the LFW train split directory already exists. -/
def lfwWarmFS : FS :=
  (FS.empty.ensurePath [zooRoot, "lfw", "train", "alice", "a1.jpg"]).ensurePath
    [zooRoot, "lfw", "test", "bob", "b1.jpg"]

/-- Two sequential `_download_and_prepare` runs of one strategy for two
(possibly different) splits, from the cold initial state with the scratch
directory ensured, as the Orchestrator arranges it. -/
def prepTwice (st : ZooDatasetStrategy) (remote : Remote) (name : String)
    (s1 s2 : String) :
    (FS × List TransportOp × Except ZooError ZooResult) ×
      (FS × List TransportOp × Except ZooError ZooResult) :=
  let fs0 := (initFS name).ensurePath (scratchDirFor name)
  let r1 := st.download_and_prepare remote fs0 [zooRoot, name, s1]
    (scratchDirFor name) (some s1)
  (r1, st.download_and_prepare remote r1.1 [zooRoot, name, s2]
    (scratchDirFor name) (some s2))

/-- The disk state a cold COCO split acquisition produces: downloaded
images and annotation staged in scratch, then moved into the dataset
directory (the filesystem side of `cocoDownloadAndPrepareCommon` run from
an empty disk with the scratch directory ensured). -/
def cocoColdFS (anno : CocoAnno) (name sp : String) : FS :=
  let scratch : FsPath := [zooRoot, name, "tmp-download"]
  let dd : FsPath := [zooRoot, name, sp]
  let images_dir := scratch ++ ["images-" ++ sp]
  let anno_path := scratch ++ ["labels-" ++ sp ++ ".json"]
  let fs0 := FS.empty.ensurePath scratch
  let d1 := ((fs0.ensurePath images_dir).addNodes
    (anno.images.map (fun i => images_dir ++ [i]))).ensurePath anno_path
  let d2 := { d1 with annos := (anno_path, anno) :: d1.annos }
  let m1 := (d2.ensurePath (dd ++ ["data"])).moveSubtree images_dir (dd ++ ["data"])
  (m1.ensurePath (dd ++ ["labels.json"]).dropLast).moveSubtree anno_path
    (dd ++ ["labels.json"])

/-!  Basic lemmas about the path order and the filesystem model. -/

theorem pathLe_iff_append {a b : FsPath} :
    pathLe a b = true ↔ ∃ t, b = a ++ t := by
  induction a generalizing b with
  | nil => simp [pathLe]
  | cons x as ih =>
    cases b with
    | nil => simp [pathLe]
    | cons y bs =>
      simp only [pathLe, Bool.and_eq_true, beq_iff_eq, ih, List.cons_append,
        List.cons.injEq]
      constructor
      · rintro ⟨rfl, t, rfl⟩; exact ⟨t, rfl, rfl⟩
      · rintro ⟨t, rfl, rfl⟩; exact ⟨rfl, t, rfl⟩

theorem pathLe_refl (p : FsPath) : pathLe p p = true :=
  pathLe_iff_append.mpr ⟨[], by simp⟩

theorem pathLe_append (a b : FsPath) : pathLe a (a ++ b) = true :=
  pathLe_iff_append.mpr ⟨b, rfl⟩

theorem pathLe_trans {a b c : FsPath} (h1 : pathLe a b = true)
    (h2 : pathLe b c = true) : pathLe a c = true := by
  rcases pathLe_iff_append.mp h1 with ⟨t1, rfl⟩
  rcases pathLe_iff_append.mp h2 with ⟨t2, rfl⟩
  exact pathLe_iff_append.mpr ⟨t1 ++ t2, by simp⟩

theorem pathLe_length {a b : FsPath} (h : pathLe a b = true) :
    a.length ≤ b.length := by
  rcases pathLe_iff_append.mp h with ⟨t, rfl⟩
  simp

theorem pathLe_of_pathLe_append {a b q : FsPath}
    (h : pathLe (a ++ b) q = true) : pathLe a q = true :=
  pathLe_trans (pathLe_append a b) h

theorem pathLe_comparable {a b c : FsPath} (ha : pathLe a c = true)
    (hb : pathLe b c = true) : pathLe a b = true ∨ pathLe b a = true := by
  induction c generalizing a b with
  | nil =>
    rcases pathLe_iff_append.mp ha with ⟨t1, h1⟩
    rcases pathLe_iff_append.mp hb with ⟨t2, h2⟩
    rcases List.append_eq_nil.mp h1.symm with ⟨rfl, -⟩
    simp [pathLe]
  | cons z cs ih =>
    cases a with
    | nil => left; simp [pathLe]
    | cons x as =>
      cases b with
      | nil => right; simp [pathLe]
      | cons y bs =>
        simp only [pathLe, Bool.and_eq_true, beq_iff_eq] at ha hb ⊢
        rcases ha with ⟨rfl, ha⟩
        rcases hb with ⟨rfl, hb⟩
        rcases ih ha hb with h | h
        · exact Or.inl ⟨rfl, h⟩
        · exact Or.inr ⟨rfl, h⟩

theorem pathLe_snoc_self_false (a : FsPath) (f : String) :
    pathLe (a ++ [f]) a = false := by
  by_contra h
  have h' : pathLe (a ++ [f]) a = true := by
    cases hb : pathLe (a ++ [f]) a
    · exact absurd hb h
    · rfl
  have := pathLe_length h'
  simp at this

theorem get_append_self (a : FsPath) (f : String) (r : List String) :
    (a ++ f :: r).get? a.length = some f := by
  rw [List.get?_append_right (Nat.le_refl _)]
  simp

theorem append_cons_ne_self (a : FsPath) (f : String) (r : List String) :
    a ++ f :: r ≠ a := by
  intro h
  have := congrArg List.length h
  simp at this

theorem pathLe_snoc_of_get {a q : FsPath} {f : String}
    (h1 : pathLe a q = true) (h2 : q.get? a.length = some f) :
    pathLe (a ++ [f]) q = true := by
  rcases pathLe_iff_append.mp h1 with ⟨t, rfl⟩
  rw [List.get?_append_right (Nat.le_refl _)] at h2
  simp only [Nat.sub_self] at h2
  cases t with
  | nil => simp at h2
  | cons u t' =>
    simp only [List.get?] at h2
    cases h2
    exact pathLe_iff_append.mpr ⟨t', by simp⟩

theorem existsNode_iff {fs : FS} {p : FsPath} :
    fs.existsNode p = true ↔ p ∈ fs.nodes := by
  simp only [FS.existsNode, List.any_eq_true, beq_iff_eq]
  constructor
  · rintro ⟨q, hq, rfl⟩; exact hq
  · intro h; exact ⟨p, h, rfl⟩

theorem self_mem_pathChain {p : FsPath} (h : p ≠ []) : p ∈ pathChain p := by
  induction p with
  | nil => exact absurd rfl h
  | cons x rest ih =>
    cases rest with
    | nil => simp [pathChain]
    | cons y t =>
      have hmem : (y :: t) ∈ pathChain (y :: t) := ih (by simp)
      show x :: y :: t ∈ [x] :: (pathChain (y :: t)).map (fun q => x :: q)
      exact List.mem_cons_of_mem _ (List.mem_map.mpr ⟨y :: t, hmem, rfl⟩)

theorem pathLe_of_mem_pathChain {q p : FsPath} (h : q ∈ pathChain p) :
    pathLe q p = true := by
  induction p generalizing q with
  | nil => simp [pathChain] at h
  | cons x rest ih =>
    simp only [pathChain, List.mem_cons, List.mem_map] at h
    rcases h with rfl | ⟨q', hq', rfl⟩
    · simp [pathLe]
    · simp [pathLe, ih hq']

theorem length_of_mem_pathChain {q p : FsPath} (h : q ∈ pathChain p) :
    q.length ≤ p.length :=
  pathLe_length (pathLe_of_mem_pathChain h)

theorem mem_ensurePath {fs : FS} {p q : FsPath} :
    q ∈ (fs.ensurePath p).nodes ↔ q ∈ pathChain p ∨ q ∈ fs.nodes := by
  simp [FS.ensurePath]

theorem mem_ensureAll {fs : FS} {ps : List FsPath} {q : FsPath} :
    q ∈ (fs.ensureAll ps).nodes ↔
      (∃ p ∈ ps, q ∈ pathChain p) ∨ q ∈ fs.nodes := by
  simp only [FS.ensureAll, List.mem_append, List.mem_flatten, List.mem_map]
  constructor
  · rintro (⟨l, ⟨p, hp, rfl⟩, hq⟩ | h)
    · exact Or.inl ⟨p, hp, hq⟩
    · exact Or.inr h
  · rintro (⟨p, hp, hq⟩ | h)
    · exact Or.inl ⟨pathChain p, ⟨p, hp, rfl⟩, hq⟩
    · exact Or.inr h

theorem mem_moveSubtree {fs : FS} {s d q : FsPath} :
    q ∈ (fs.moveSubtree s d).nodes ↔
      ∃ q0 ∈ fs.nodes, q = renamePath s d q0 := by
  simp only [FS.moveSubtree, List.mem_map]
  constructor
  · rintro ⟨q0, hq0, rfl⟩; exact ⟨q0, hq0, rfl⟩
  · rintro ⟨q0, hq0, rfl⟩; exact ⟨q0, hq0, rfl⟩

theorem renamePath_of_not_le {s d q : FsPath} (h : pathLe s q = false) :
    renamePath s d q = q := by
  simp [renamePath, h]

theorem renamePath_of_le {s d q : FsPath} (h : pathLe s q = true) :
    renamePath s d q = d ++ q.drop s.length := by
  simp [renamePath, h]

theorem mem_children_iff {fs : FS} {dir : FsPath} {f : String} :
    f ∈ fs.children dir ↔
      ∃ q ∈ fs.nodes, pathLe dir q = true ∧ q ≠ dir ∧ q.get? dir.length = some f := by
  simp only [FS.children, List.mem_dedup, List.mem_filterMap, List.mem_filter,
    Bool.and_eq_true, bne_iff_ne, ne_eq]
  constructor
  · rintro ⟨q, ⟨hq, hle, hne⟩, hget⟩
    exact ⟨q, hq, hle, hne, hget⟩
  · rintro ⟨q, hq, hle, hne, hget⟩
    exact ⟨q, ⟨hq, hle, hne⟩, hget⟩

theorem children_sub_of_mem {fs : FS} {dir q : FsPath} (hq : q ∈ fs.nodes)
    (hle : pathLe dir q = true) (hne : q ≠ dir) :
    ∃ f, q.get? dir.length = some f ∧ f ∈ fs.children dir := by
  rcases pathLe_iff_append.mp hle with ⟨t, rfl⟩
  cases t with
  | nil => simp at hne
  | cons f t' =>
    refine ⟨f, get_append_self _ _ _, ?_⟩
    exact mem_children_iff.mpr ⟨_, hq, hle, hne, get_append_self _ _ _⟩


/-- C7: for every key of `AVAILABLE_DATASETS`, instantiating the mapped
strategy class with its default construction parameters and reading its
`name` property yields exactly that key: `get(name).name() == name` for
all nine registered names. -/
theorem registry_names_consistent :
    (AVAILABLE_DATASETS.map Prod.fst).all
      (fun n => (getZooDataset n).map ZooDatasetStrategy.name == some n) = true := by
  decide

/-- C10: the CIFAR-100 ingestion script processes the partitions
`["train", "test"]` in that order, adds exactly one sample per entry of
each partition's fine-labels mapping, and gives every added sample a tags
list headed by the partition name, optionally followed by a single
`rand` tag. -/
theorem ingest_data_per_partition (data_dir : FsPath)
    (fine : String → List String) (rand : Nat → Bool) :
    ingest_data data_dir fine rand =
      cifarSamples data_dir ("train") (fine ("train")) rand 0 ++
        cifarSamples data_dir ("test") (fine ("test")) rand (fine ("train")).length ∧
    (∀ p off, (cifarSamples data_dir p (fine p) rand off).length = (fine p).length) ∧
    (∀ p off s, s ∈ cifarSamples data_dir p (fine p) rand off →
      s.tags.head? = some p ∧ (s.tags = [p] ∨ s.tags = [p, "rand"])) := by
  refine ⟨?_, ?_, ?_⟩
  · simp [ingest_data, cifarPartitions]
  · intro p off
    simp [cifarSamples]
  · intro p off s hs
    simp only [cifarSamples, List.mem_map] at hs
    rcases hs with ⟨ir, -, rfl⟩
    cases h : rand (off + ir.1) <;> simp [h]

/-- Witness for C10: the theorem applied to a concrete one-image
fine-labels mapping. -/
theorem ingest_data_per_partition_witness :
    ({ filepath := [("img0.png")], tags := [("train")] } : ImageSample).tags.head? =
        some ("train") ∧
      (({ filepath := [("img0.png")], tags := [("train")] } : ImageSample).tags =
          [("train")] ∨
        ({ filepath := [("img0.png")], tags := [("train")] } : ImageSample).tags =
          [("train"), "rand"]) :=
  (ingest_data_per_partition [] (fun _ => [("img0.png")]) (fun _ => false)).2.2
    ("train") 0 _ (by decide)

/-- C1 (code bug evaluation): for the cityscapes strategy, an `acquire`
on a cache miss (empty disk) invokes no Transport Adapter operation at
all — the retrieval branch of `CityscapesDataset._download_and_prepare`
is a commented-out no-op — and the call then fails while parsing
metadata from the never-populated directories, instead of retrieving and
populating the split as the claim requires. -/
theorem cityscapes_miss_performs_no_retrieval :
    (acquire remote0 ("cityscapes") (some ("train")) FS.empty).2.1 = [] ∧
    (acquire remote0 ("cityscapes") (some ("train")) FS.empty).2.2 =
      .error (.notFound [zooRoot, "cityscapes", "train"]) := by
  decide

/-- Counterexample to C2 as stated: for the registered name `cityscapes`
and the supported split `train`, two sequential `acquire` calls from a
cold state perform zero retrievals, not exactly one, because the
strategy's retrieval branch is a no-op. -/
theorem acquire_twice_cityscapes_not_one_retrieval :
    ¬ ((((acquireTwiceOps remote0 ("cityscapes") (some ("train"))
            (initFS ("cityscapes"))).1 ++
          (acquireTwiceOps remote0 ("cityscapes") (some ("train"))
            (initFS ("cityscapes"))).2).filter TransportOp.isRetrieval).length = 1) := by
  decide

/-!  Lemmas for the `_move_dir` specification (C9). -/

theorem pathLe_snoc_cases {a b : FsPath} {x : String}
    (h : pathLe a (b ++ [x]) = true) : pathLe a b = true ∨ a = b ++ [x] := by
  rcases pathLe_iff_append.mp h with ⟨t, ht⟩
  rcases List.eq_nil_or_concat t with rfl | ⟨t', u, rfl⟩
  · right; simp at ht; simp [ht]
  · left
    rw [List.concat_eq_append] at ht
    have ht' : (b ++ [x]).dropLast = (a ++ (t' ++ [u])).dropLast := by rw [ht]
    rw [List.dropLast_concat, ← List.append_assoc, List.dropLast_concat] at ht'
    exact pathLe_iff_append.mpr ⟨t', ht'⟩

theorem snoc_not_le_of_not_le {a b : FsPath} {f : String}
    (h : pathLe a b = false) : pathLe (a ++ [f]) b = false := by
  refine eq_false_of_ne_true (fun hx => ?_)
  exact ne_true_of_eq_false h (pathLe_of_pathLe_append hx)

theorem not_le_snoc_of_incomparable {src dst : FsPath} {f : String}
    (hnd : pathLe src dst = false) (hns : pathLe dst src = false) :
    pathLe dst (src ++ [f]) = false := by
  refine eq_false_of_ne_true (fun hx => ?_)
  rcases pathLe_snoc_cases hx with h | rfl
  · exact ne_true_of_eq_false hns h
  · exact ne_true_of_eq_false hnd (pathLe_append src [f])

theorem untouched_of_incomparable_le {src dst q : FsPath} {f : String}
    (hnd : pathLe src dst = false) (hns : pathLe dst src = false)
    (hq : pathLe dst q = true) : pathLe (src ++ [f]) q = false := by
  refine eq_false_of_ne_true (fun hx => ?_)
  rcases pathLe_comparable hq hx with h | h
  · exact ne_true_of_eq_false (not_le_snoc_of_incomparable hnd hns) h
  · exact ne_true_of_eq_false hnd (pathLe_trans (pathLe_append src [f]) h)

theorem shutilMove_dir_branch {fs : FS} {src dst : FsPath} {f : String}
    (h : fs.existsNode dst = true) :
    (shutil.move fs (src ++ [f]) dst).1 = fs.moveSubtree (src ++ [f]) (dst ++ [f]) := by
  simp [shutil.move, h, List.getLast?_concat]

theorem moveEntries_spec (src dst : FsPath) (hnd : pathLe src dst = false)
    (hns : pathLe dst src = false) :
    ∀ (L : List String) (fs : FS), L.Nodup →
      src ∈ fs.nodes → dst ∈ fs.nodes →
      (∀ f ∈ L, f ∈ fs.children src) →
      (src ∈ (moveEntries fs L src dst).nodes ∧
       dst ∈ (moveEntries fs L src dst).nodes ∧
       (∀ f0 ∈ fs.children dst, f0 ∈ (moveEntries fs L src dst).children dst) ∧
       (∀ f ∈ L, f ∈ (moveEntries fs L src dst).children dst) ∧
       (∀ f, f ∈ (moveEntries fs L src dst).children src →
         f ∈ fs.children src ∧ f ∉ L)) := by
  intro L
  induction L with
  | nil =>
    intro fs _ hsrc hdst _
    refine ⟨hsrc, hdst, fun f0 h0 => h0, by simp, fun f hf => ⟨hf, by simp⟩⟩
  | cons f L' ih =>
    intro fs hnodup hsrc hdst hsub
    have hdstB : fs.existsNode dst = true := existsNode_iff.mpr hdst
    have hstep : moveEntries fs (f :: L') src dst =
        moveEntries (fs.moveSubtree (src ++ [f]) (dst ++ [f])) L' src dst := by
      simp only [moveEntries, List.foldl_cons]
      rw [shutilMove_dir_branch hdstB]
    set fs1 := fs.moveSubtree (src ++ [f]) (dst ++ [f]) with hfs1
    -- the moved entry exists among the children of `src`
    have hfmem : f ∈ fs.children src := hsub f (by simp)
    -- (a) `src` survives the step
    have hsrc1 : src ∈ fs1.nodes :=
      mem_moveSubtree.mpr ⟨src, hsrc,
        (renamePath_of_not_le (pathLe_snoc_self_false src f)).symm⟩
    -- (b) `dst` survives the step
    have hdstStep : pathLe (src ++ [f]) dst = false :=
      snoc_not_le_of_not_le hnd
    have hdst1 : dst ∈ fs1.nodes :=
      mem_moveSubtree.mpr ⟨dst, hdst, (renamePath_of_not_le hdstStep).symm⟩
    -- (c) children of `dst` survive the step
    have hpresDst : ∀ f0 ∈ fs.children dst, f0 ∈ fs1.children dst := by
      intro f0 h0
      rcases mem_children_iff.mp h0 with ⟨q, hq, hle, hne, hget⟩
      have huntouched : pathLe (src ++ [f]) q = false :=
        untouched_of_incomparable_le hnd hns hle
      exact mem_children_iff.mpr
        ⟨q, mem_moveSubtree.mpr ⟨q, hq, (renamePath_of_not_le huntouched).symm⟩,
          hle, hne, hget⟩
    -- (d) `f` becomes a child of `dst`
    have hnew : f ∈ fs1.children dst := by
      rcases mem_children_iff.mp hfmem with ⟨q, hq, hle, hne, hget⟩
      have hqf : pathLe (src ++ [f]) q = true := pathLe_snoc_of_get hle hget
      rcases pathLe_iff_append.mp hqf with ⟨r, rfl⟩
      have hq1 : (dst ++ [f]) ++ r ∈ fs1.nodes := by
        refine mem_moveSubtree.mpr ⟨(src ++ [f]) ++ r, hq, ?_⟩
        rw [renamePath_of_le hqf]
        simp
      rw [List.append_assoc, List.singleton_append] at hq1
      exact mem_children_iff.mpr
        ⟨dst ++ f :: r, hq1, pathLe_iff_append.mpr ⟨f :: r, rfl⟩,
          append_cons_ne_self dst f r, get_append_self dst f r⟩
    -- (e) children of `src` only shrink in the step, and `f` is gone
    have hshrink : ∀ f', f' ∈ fs1.children src → f' ∈ fs.children src ∧ f' ≠ f := by
      intro f' h'
      rcases mem_children_iff.mp h' with ⟨q, hq1, hle, hne, hget⟩
      rcases mem_moveSubtree.mp hq1 with ⟨q0, hq0, rfl⟩
      by_cases hx : pathLe (src ++ [f]) q0 = true
      · exfalso
        rw [renamePath_of_le hx] at hle
        have hdl : pathLe (dst ++ [f])
            ((dst ++ [f]) ++ q0.drop (src ++ [f]).length) = true :=
          pathLe_append _ _
        rcases pathLe_comparable hle hdl with h | h
        · rcases pathLe_snoc_cases h with hz | hz
          · exact ne_true_of_eq_false hnd hz
          · rw [hz] at hns
            exact absurd (pathLe_append dst [f]) (ne_true_of_eq_false hns)
        · exact absurd (pathLe_trans (pathLe_append dst [f]) h)
            (ne_true_of_eq_false hns)
      · have hx' : pathLe (src ++ [f]) q0 = false := eq_false_of_ne_true hx
        rw [renamePath_of_not_le hx'] at hle hne hget
        refine ⟨mem_children_iff.mpr ⟨q0, hq0, hle, hne, hget⟩, fun hff => ?_⟩
        subst hff
        exact hx (pathLe_snoc_of_get hle hget)
    -- children listed after `f` survive the step
    have hsub1 : ∀ g ∈ L', g ∈ fs1.children src := by
      intro g hg
      have hgf : g ≠ f := by
        intro hgf
        subst hgf
        exact (List.nodup_cons.mp hnodup).1 hg
      rcases mem_children_iff.mp (hsub g (by simp [hg])) with ⟨q, hq, hle, hne, hget⟩
      have huntouched : pathLe (src ++ [f]) q = false := by
        refine eq_false_of_ne_true (fun hx => ?_)
        rcases pathLe_iff_append.mp hx with ⟨r, rfl⟩
        rw [List.append_assoc, List.singleton_append, get_append_self src f r] at hget
        exact hgf (Option.some.inj hget).symm
      exact mem_children_iff.mpr
        ⟨q, mem_moveSubtree.mpr ⟨q, hq, (renamePath_of_not_le huntouched).symm⟩,
          hle, hne, hget⟩
    have hih := ih fs1 (List.nodup_cons.mp hnodup).2 hsrc1 hdst1 hsub1
    rw [hstep]
    refine ⟨hih.1, hih.2.1, ?_, ?_, ?_⟩
    · intro f0 h0
      exact hih.2.2.1 f0 (hpresDst f0 h0)
    · intro g hg
      rcases List.mem_cons.mp hg with rfl | hg'
      · exact hih.2.2.1 g hnew
      · exact hih.2.2.2.1 g hg'
    · intro f' h'
      rcases hih.2.2.2.2 f' h' with ⟨h1, h2⟩
      rcases hshrink f' h1 with ⟨h3, h4⟩
      exact ⟨h3, by simp [h2, h4]⟩

theorem move_dir_fst_eq_moveEntries (fs : FS) (src dst : FsPath) :
    (_move_dir fs src dst).1 = moveEntries fs (fs.children src) src dst := by
  unfold _move_dir moveEntries
  generalize fs.children src = L
  induction L generalizing fs with
  | nil => rfl
  | cons f L' ih =>
    simp only [List.foldl_cons]
    have hpair : ∀ (L : List String) (ops : List TransportOp) (g : FS),
        (L.foldl (fun acc f =>
          ((shutil.move acc.1 (src ++ [f]) dst).1,
            acc.2 ++ [(shutil.move acc.1 (src ++ [f]) dst).2])) (g, ops)).1 =
          L.foldl (fun a f => (shutil.move a (src ++ [f]) dst).1) g := by
      intro L
      induction L with
      | nil => intro ops g; rfl
      | cons u us ihu =>
        intro ops g
        simp only [List.foldl_cons]
        exact ihu _ _
    exact hpair _ _ _

theorem children_nodup (fs : FS) (dir : FsPath) : (fs.children dir).Nodup :=
  List.nodup_dedup _

/-- C9: `_move_dir(src, dst)` moves every immediate child entry of `src`
into `dst` and leaves the directory `src` itself in place: afterwards
`dst` contains every entry `src` contained before the call, `src`
contains no entries, and `src` still exists as a now-empty directory.
Hypotheses: both directories exist, neither lies inside the other, and
their entry names do not collide (`shutil.move` would fail on a
collision). -/
theorem move_dir_spec (fs : FS) (src dst : FsPath)
    (hsrc : fs.existsNode src = true) (hdst : fs.existsNode dst = true)
    (hnd : pathLe src dst = false) (hns : pathLe dst src = false)
    (_hdisj : ∀ f ∈ fs.children src, f ∉ fs.children dst) :
    (∀ f ∈ fs.children src, f ∈ (_move_dir fs src dst).1.children dst) ∧
    (_move_dir fs src dst).1.children src = [] ∧
    (_move_dir fs src dst).1.existsNode src = true := by
  rw [move_dir_fst_eq_moveEntries]
  have h := moveEntries_spec src dst hnd hns (fs.children src) fs
    (children_nodup fs src) (existsNode_iff.mp hsrc) (existsNode_iff.mp hdst)
    (fun f hf => hf)
  refine ⟨h.2.2.2.1, ?_, existsNode_iff.mpr h.1⟩
  rw [List.eq_nil_iff_forall_not_mem]
  intro f hf
  exact (h.2.2.2.2 f hf).2 (h.2.2.2.2 f hf).1

/-- Witness for C9: the specification applied to a concrete two-entry
directory moved into an existing sibling directory. -/
theorem move_dir_spec_witness :
    (∀ f ∈ moveDirWitnessFS.children ["s"],
      f ∈ (_move_dir moveDirWitnessFS ["s"] ["d"]).1.children ["d"]) ∧
    (_move_dir moveDirWitnessFS ["s"] ["d"]).1.children ["s"] = [] ∧
    (_move_dir moveDirWitnessFS ["s"] ["d"]).1.existsNode ["s"] = true :=
  move_dir_spec moveDirWitnessFS ["s"] ["d"] (by decide) (by decide) (by decide)
    (by decide) (by decide)

/-- Counterexample to C6 as stated: `COCO2014Dataset._download_and_prepare`
performs no cache check of its own — on a disk state where the requested
split's data already exists in full, it still invokes a retrieval through
the Transport Adapter. -/
theorem coco_download_ignores_existing_data :
    cocoWarmFS.existsNode [zooRoot, "coco-2014-segmentation", "train"] = true ∧
    (COCO2014Dataset.download_and_prepare remote0 cocoWarmFS
        [zooRoot, "coco-2014-segmentation", "train"]
        (scratchDirFor ("coco-2014-segmentation")) ("train")).2.1.filter
      TransportOp.isRetrieval ≠ [] := by
  decide

/-- C6 (amended): the five whole-bundle strategies (lfw, cityscapes,
bdd100k, hmdb51, ucf101) each check inside `_download_and_prepare`
whether the requested split's directory already exists and invoke no
Transport Adapter operation when it does; the per-split strategies
(coco-2014-segmentation, coco-2017-segmentation, quickstart,
quickstart-video) perform no such check — every call of theirs invokes a
retrieval, the cache check for them living in the Orchestrator. -/
theorem strategy_cache_check_ownership :
    (∀ (remote : Remote) (fs : FS) (dataset_dir scratch_dir : FsPath) (split : String),
      fs.existsNode (dataset_dir.dropLast ++ [split]) = true →
      (LabeledFacesInTheWildDataset.download_and_prepare remote fs dataset_dir
          scratch_dir split).2.1 = [] ∧
      (∀ a b c, (CityscapesDataset.download_and_prepare a b c fs dataset_dir
          scratch_dir split).2.1 = []) ∧
      (∀ sd cf, (BDD100KDataset.download_and_prepare sd cf remote fs dataset_dir
          scratch_dir split).2.1 = []) ∧
      (∀ fold, (HMDB51Dataset.download_and_prepare fold remote fs dataset_dir
          scratch_dir split).2.1 = []) ∧
      (∀ fold, (UCF101Dataset.download_and_prepare fold remote fs dataset_dir
          scratch_dir split).2.1 = [])) ∧
    (∀ (remote : Remote) (fs : FS) (dataset_dir scratch_dir : FsPath) (split : String),
      (COCO2014Dataset.download_and_prepare remote fs dataset_dir
          scratch_dir split).2.1.filter TransportOp.isRetrieval ≠ [] ∧
      (COCO2017Dataset.download_and_prepare remote fs dataset_dir
          scratch_dir split).2.1.filter TransportOp.isRetrieval ≠ [] ∧
      (QuickstartDataset.download_and_prepare remote fs dataset_dir
          scratch_dir).2.1.filter TransportOp.isRetrieval ≠ [] ∧
      (VideoQuickstartDataset.download_and_prepare remote fs dataset_dir
          scratch_dir).2.1.filter TransportOp.isRetrieval ≠ []) := by
  constructor
  · intro remote fs dataset_dir scratch_dir split h
    refine ⟨?_, fun a b c => ?_, fun sd cf => ?_, fun fold => ?_, fun fold => ?_⟩
    · simp only [LabeledFacesInTheWildDataset.download_and_prepare, h, if_true]
      split <;> try rfl
      split <;> try rfl
      split <;> rfl
    · simp only [CityscapesDataset.download_and_prepare, h, if_true]
      split <;> try rfl
      split <;> try rfl
      split <;> try rfl
      split <;> rfl
    · simp only [BDD100KDataset.download_and_prepare, h, if_true]
      split <;> rfl
    · simp only [HMDB51Dataset.download_and_prepare, h, if_true]
      split <;> try rfl
      split <;> rfl
    · simp only [UCF101Dataset.download_and_prepare, h, if_true]
      split <;> try rfl
      split <;> rfl
  · intro remote fs dataset_dir scratch_dir split
    refine ⟨?_, ?_, ?_, ?_⟩
    · simp only [COCO2014Dataset.download_and_prepare, cocoDownloadAndPrepareCommon,
        download_coco_dataset_split]
      split <;> simp [TransportOp.isRetrieval]
    · simp only [COCO2017Dataset.download_and_prepare, cocoDownloadAndPrepareCommon,
        download_coco_dataset_split]
      split <;> simp [TransportOp.isRetrieval]
    · simp only [QuickstartDataset.download_and_prepare, download_google_drive_file,
        extract_zip]
      split
      · simp [List.filter_cons, TransportOp.isRetrieval]
      · split <;> simp [List.filter_cons, TransportOp.isRetrieval]
    · simp only [VideoQuickstartDataset.download_and_prepare, download_google_drive_file,
        extract_zip]
      split <;> simp [List.filter_cons, TransportOp.isRetrieval]

/-- Witness for C6 (amended): the whole-bundle cache-check conjunct
applied to LFW on a disk state whose train split directory exists. -/
theorem strategy_cache_check_ownership_witness :
    (LabeledFacesInTheWildDataset.download_and_prepare remote0 lfwWarmFS
        [zooRoot, "lfw", "train"] (scratchDirFor ("lfw")) ("train")).2.1 = [] :=
  (strategy_cache_check_ownership.1 remote0 lfwWarmFS [zooRoot, "lfw", "train"]
    (scratchDirFor ("lfw")) ("train") (by decide)).1

/-- C3: for the bdd100k strategy as registered (constructed with
`source_dir=None`), `acquire` for any supported split on a cache miss,
with the manually downloaded bundle absent from the scratch directory
(and no source directory configured), surfaces
`ManualDownloadRequiredError` instead of succeeding or silently
no-opping. -/
theorem bdd_manual_download_required (remote : Remote) (fs : FS) (split : String)
    (hsplit : split ∈ (["train", "validation", "test"] : List String))
    (hmiss : fs.existsNode [zooRoot, "bdd100k", split] = false)
    (hnolabels : fs.existsNode [zooRoot, "bdd100k", "tmp-download", "labels"] = false) :
    (acquire remote ("bdd100k") (some split) fs).2.2 = .error .manualDownloadRequired := by
  simp only [FS.existsNode, zooRoot] at hmiss hnolabels
  simp only [List.mem_cons, List.not_mem_nil, or_false] at hsplit
  rcases hsplit with rfl | rfl | rfl <;>
  · simp +decide [acquire, getZooDataset, AVAILABLE_DATASETS, List.lookup,
      validSplit, ZooDatasetStrategy.supported_splits, datasetDirFor, scratchDirFor,
      ZooDatasetStrategy.download_and_prepare, BDD100KDataset.download_and_prepare,
      wrangle_bdd100k_download, FS.ensurePath, FS.existsNode, pathChain,
      Option.toList, Option.getD, zooRoot, List.any_append, List.any_cons,
      List.any_nil, List.cons_append, List.nil_append, List.dropLast,
      hmiss, hnolabels]

/-- Witness for C3: the theorem applied to an empty disk and the train
split. -/
theorem bdd_manual_download_required_witness :
    (acquire remote0 ("bdd100k") (some ("train")) FS.empty).2.2 =
      .error .manualDownloadRequired :=
  bdd_manual_download_required remote0 FS.empty ("train") (by decide) (by decide)
    (by decide)

/-- C8: for the lfw strategy, on any disk state with both the train and
test split directories populated, `_download_and_prepare` returns — for
either requested split — the same class list: the ascending-sorted
concatenation of the classes scanned from the train directory and the
test directory (the result expression does not depend on the requested
split), and that list is sorted. -/
theorem lfw_classes_split_independent (remote : Remote) (fs : FS) (split : String)
    (hsplit : split ∈ (["test", "train"] : List String))
    (htrain : fs.existsNode [zooRoot, "lfw", "train"] = true)
    (htest : fs.existsNode [zooRoot, "lfw", "test"] = true) :
    (LabeledFacesInTheWildDataset.download_and_prepare remote fs
        [zooRoot, "lfw", split] (scratchDirFor ("lfw")) split).2.2 =
      .ok (.imageClassificationDirectoryTree,
        fs.countFilesUnder [zooRoot, "lfw", split],
        some (pysorted (fs.children [zooRoot, "lfw", "train"] ++
          fs.children [zooRoot, "lfw", "test"]))) ∧
    (pysorted (fs.children [zooRoot, "lfw", "train"] ++
      fs.children [zooRoot, "lfw", "test"])).Sorted (fun a b => a ≤ b) := by
  constructor
  · simp only [List.mem_cons, List.not_mem_nil, or_false] at hsplit
    rcases hsplit with rfl | rfl <;>
    · simp only [LabeledFacesInTheWildDataset.download_and_prepare,
        ImageClassificationDirectoryTreeImporter.get_classes,
        ImageClassificationDirectoryTreeImporter.get_num_samples,
        importerClasses, importerNumSamples, List.dropLast, List.cons_append,
        List.nil_append, htrain, htest, if_true]
  · exact List.sorted_insertionSort _ _

/-- Witness for C8: the theorem applied to a concrete disk state holding
one class per split, for the train split. -/
theorem lfw_classes_split_independent_witness :
    (LabeledFacesInTheWildDataset.download_and_prepare remote0 lfwWarmFS
        [zooRoot, "lfw", "train"] (scratchDirFor ("lfw")) ("train")).2.2 =
      .ok (.imageClassificationDirectoryTree,
        lfwWarmFS.countFilesUnder [zooRoot, "lfw", "train"],
        some (pysorted (lfwWarmFS.children [zooRoot, "lfw", "train"] ++
          lfwWarmFS.children [zooRoot, "lfw", "test"]))) ∧
    (pysorted (lfwWarmFS.children [zooRoot, "lfw", "train"] ++
      lfwWarmFS.children [zooRoot, "lfw", "test"])).Sorted (fun a b => a ≤ b) :=
  lfw_classes_split_independent remote0 lfwWarmFS ("train") (by decide)
    (by decide) (by decide)

/-- C4: for every whole-bundle strategy (lfw, cityscapes, bdd100k,
hmdb51, ucf101), requesting two different splits in sequence triggers at
most one full-bundle retrieval, and when the first call has already
populated the second split's directory, the second call's existence
check short-circuits without re-invoking retrieval. -/
theorem whole_bundle_two_splits_single_retrieval :
    ∀ remote : Remote, ∀ p ∈ AVAILABLE_DATASETS,
      p.1 ∈ (["lfw", "cityscapes", "bdd100k", "hmdb51", "ucf101"] : List String) →
      ∀ s1 s2 : String, s1 ∈ p.2.supported_splits.getD [] →
        s2 ∈ p.2.supported_splits.getD [] → s1 ≠ s2 →
        (((prepTwice p.2 remote p.1 s1 s2).1.2.1 ++
            (prepTwice p.2 remote p.1 s1 s2).2.2.1).filter
          TransportOp.isRetrieval).length ≤ 1 ∧
        ((prepTwice p.2 remote p.1 s1 s2).1.1.existsNode [zooRoot, p.1, s2] = true →
          (prepTwice p.2 remote p.1 s1 s2).2.2.1 = []) := by
  intro remote p hp hwb s1 s2 h1 h2 hne
  simp only [AVAILABLE_DATASETS, List.mem_cons, List.not_mem_nil, or_false] at hp
  rcases hp with rfl | rfl | rfl | rfl | rfl | rfl | rfl | rfl | rfl
  · exact absurd hwb (by decide)
  · exact absurd hwb (by decide)
  · exact absurd hwb (by decide)
  · exact absurd hwb (by decide)
  all_goals
    simp only [ZooDatasetStrategy.supported_splits, Option.getD_some,
      List.mem_cons, List.not_mem_nil, or_false] at h1 h2
  · -- lfw
    rcases h1 with rfl | rfl <;> rcases h2 with rfl | rfl <;>
      first
      | exact absurd rfl hne
      | simp +decide [prepTwice, initFS, scratchDirFor, zooRoot,
          ZooDatasetStrategy.download_and_prepare,
          LabeledFacesInTheWildDataset.download_and_prepare,
          download_lfw_dataset, bundlePaths, FS.ensurePath, FS.ensureAll,
          FS.empty, FS.existsNode, pathChain, importerClasses,
          importerNumSamples, ImageClassificationDirectoryTreeImporter.get_classes,
          ImageClassificationDirectoryTreeImporter.get_num_samples,
          List.dropLast, TransportOp.isRetrieval, List.filter]
  · -- cityscapes
    rcases h1 with rfl | rfl | rfl <;> rcases h2 with rfl | rfl | rfl <;>
      first
      | exact absurd rfl hne
      | simp +decide [prepTwice, initFS, scratchDirFor, zooRoot,
          ZooDatasetStrategy.download_and_prepare,
          CityscapesDataset.download_and_prepare, FS.ensurePath, FS.empty,
          FS.existsNode, pathChain, importerClasses, importerNumSamples,
          FiftyOneDatasetImporter.get_classes,
          FiftyOneDatasetImporter.get_num_samples, List.dropLast,
          TransportOp.isRetrieval, List.filter]
  · -- bdd100k
    rcases h1 with rfl | rfl | rfl <;> rcases h2 with rfl | rfl | rfl <;>
      first
      | exact absurd rfl hne
      | simp +decide [prepTwice, initFS, scratchDirFor, zooRoot,
          ZooDatasetStrategy.download_and_prepare,
          BDD100KDataset.download_and_prepare, wrangle_bdd100k_download,
          bundlePaths, FS.ensurePath, FS.ensureAll, FS.empty, FS.existsNode,
          pathChain, importerClasses, importerNumSamples,
          BDDDatasetImporter.get_num_samples, Option.getD, List.dropLast,
          TransportOp.isRetrieval, List.filter]
  · -- hmdb51
    rcases h1 with rfl | rfl | rfl <;> rcases h2 with rfl | rfl | rfl <;>
      first
      | exact absurd rfl hne
      | simp +decide [prepTwice, initFS, scratchDirFor, zooRoot,
          ZooDatasetStrategy.download_and_prepare,
          HMDB51Dataset.download_and_prepare, download_hmdb51_dataset,
          bundlePaths, FS.ensurePath, FS.ensureAll, FS.empty, FS.existsNode,
          pathChain, importerClasses, importerNumSamples,
          VideoClassificationDirectoryTreeImporter.get_classes,
          VideoClassificationDirectoryTreeImporter.get_num_samples,
          List.dropLast, TransportOp.isRetrieval, List.filter]
  · -- ucf101
    rcases h1 with rfl | rfl <;> rcases h2 with rfl | rfl <;>
      first
      | exact absurd rfl hne
      | simp +decide [prepTwice, initFS, scratchDirFor, zooRoot,
          ZooDatasetStrategy.download_and_prepare,
          UCF101Dataset.download_and_prepare, download_ucf101_dataset,
          bundlePaths, FS.ensurePath, FS.ensureAll, FS.empty, FS.existsNode,
          pathChain, importerClasses, importerNumSamples,
          VideoClassificationDirectoryTreeImporter.get_classes,
          VideoClassificationDirectoryTreeImporter.get_num_samples,
          List.dropLast, TransportOp.isRetrieval, List.filter]

/-- Witness for C4: the theorem applied to the lfw strategy with the
train split requested before the test split. -/
theorem whole_bundle_two_splits_single_retrieval_witness :
    (((prepTwice .lfw remote0 ("lfw") ("train") ("test")).1.2.1 ++
        (prepTwice .lfw remote0 ("lfw") ("train") ("test")).2.2.1).filter
      TransportOp.isRetrieval).length ≤ 1 ∧
    ((prepTwice .lfw remote0 ("lfw") ("train") ("test")).1.1.existsNode
        [zooRoot, "lfw", "test"] = true →
      (prepTwice .lfw remote0 ("lfw") ("train") ("test")).2.2.1 = []) :=
  whole_bundle_two_splits_single_retrieval remote0 (("lfw"), .lfw) (by decide)
    (by decide) ("train") ("test") (by decide) (by decide) (by decide)

/-!  Orchestrator reduction lemmas and preservation lemmas used by the
idempotence theorem. -/

theorem acquire_miss {remote : Remote} {name : String} {split : Option String}
    {st : ZooDatasetStrategy} (hlook : getZooDataset name = some st)
    (hok : validSplit st split = true) {fs : FS}
    (hmiss : fs.existsNode (datasetDirFor name split) = false) :
    acquire remote name split fs =
      ((st.download_and_prepare remote (fs.ensurePath (scratchDirFor name))
          (datasetDirFor name split) (scratchDirFor name) split).1,
       (st.download_and_prepare remote (fs.ensurePath (scratchDirFor name))
          (datasetDirFor name split) (scratchDirFor name) split).2.1,
       (st.download_and_prepare remote (fs.ensurePath (scratchDirFor name))
          (datasetDirFor name split) (scratchDirFor name) split).2.2.map some) := by
  unfold acquire
  rw [hlook]
  simp [hok, hmiss]

theorem acquire_hit {remote : Remote} {name : String} {split : Option String}
    {st : ZooDatasetStrategy} (hlook : getZooDataset name = some st)
    (hok : validSplit st split = true) {fs : FS}
    (hhit : fs.existsNode (datasetDirFor name split) = true) :
    acquire remote name split fs = (fs, [], .ok none) := by
  unfold acquire
  rw [hlook]
  simp [hok, hhit]

theorem quickstart_parts (remote : Remote) (fs : FS) (dd sd : FsPath) :
    (QuickstartDataset.download_and_prepare remote fs dd sd).1 =
      (_move_dir (extract_zip (sd ++ ["dataset.zip"]) remote.quickstartZip
          (fs.ensurePath (sd ++ ["dataset.zip"]))).1 (sd ++ ["quickstart"]) dd).1 ∧
    (QuickstartDataset.download_and_prepare remote fs dd sd).2.1 =
      [.googleDriveDownload quickstartGdriveId, .extractZip (sd ++ ["dataset.zip"])] ++
        (_move_dir (extract_zip (sd ++ ["dataset.zip"]) remote.quickstartZip
          (fs.ensurePath (sd ++ ["dataset.zip"]))).1 (sd ++ ["quickstart"]) dd).2 := by
  unfold QuickstartDataset.download_and_prepare download_google_drive_file
  dsimp only
  constructor
  · split <;> (try split) <;> rfl
  · split <;> (try split) <;> rfl

theorem videoQuickstart_parts (remote : Remote) (fs : FS) (dd sd : FsPath) :
    (VideoQuickstartDataset.download_and_prepare remote fs dd sd).1 =
      (_move_dir (extract_zip (sd ++ ["dataset.zip"]) remote.quickstartVideoZip
          (fs.ensurePath (sd ++ ["dataset.zip"]))).1 (sd ++ ["quickstart-video"]) dd).1 ∧
    (VideoQuickstartDataset.download_and_prepare remote fs dd sd).2.1 =
      [.googleDriveDownload quickstartVideoGdriveId, .extractZip (sd ++ ["dataset.zip"])] ++
        (_move_dir (extract_zip (sd ++ ["dataset.zip"]) remote.quickstartVideoZip
          (fs.ensurePath (sd ++ ["dataset.zip"]))).1 (sd ++ ["quickstart-video"]) dd).2 := by
  unfold VideoQuickstartDataset.download_and_prepare download_google_drive_file
  dsimp only
  constructor
  · split <;> rfl
  · split <;> rfl

theorem mem_shutilMove_of_not_le {fs : FS} {s d q : FsPath} (hq : q ∈ fs.nodes)
    (h : pathLe s q = false) : q ∈ (shutil.move fs s d).1.nodes := by
  unfold shutil.move
  exact mem_moveSubtree.mpr ⟨q, hq, (renamePath_of_not_le h).symm⟩

theorem mem_moveEntries_of_not_le {src dst q : FsPath} (h : pathLe src q = false) :
    ∀ (L : List String) (fs : FS), q ∈ fs.nodes →
      q ∈ (moveEntries fs L src dst).nodes := by
  intro L
  induction L with
  | nil => intro fs hq; exact hq
  | cons f L' ih =>
    intro fs hq
    simp only [moveEntries, List.foldl_cons]
    exact ih _ (mem_shutilMove_of_not_le hq (snoc_not_le_of_not_le h))

theorem mem_move_dir_of_not_le {fs : FS} {src dst q : FsPath}
    (hq : q ∈ fs.nodes) (h : pathLe src q = false) :
    q ∈ (_move_dir fs src dst).1.nodes := by
  rw [move_dir_fst_eq_moveEntries]
  exact mem_moveEntries_of_not_le h _ _ hq

theorem filter_map_eq_nil {α β : Type} (p : β → Bool) (f : α → β) (l : List α)
    (h : ∀ x, p (f x) = false) : (l.map f).filter p = [] := by
  induction l with
  | nil => rfl
  | cons a t ih => simp [List.filter_cons, h a, ih]

theorem move_dir_ops_not_retrieval (fs : FS) (src dst : FsPath) :
    (_move_dir fs src dst).2.filter TransportOp.isRetrieval = [] := by
  unfold _move_dir
  suffices h : ∀ (L : List String) (g : FS) (ops : List TransportOp),
      ops.filter TransportOp.isRetrieval = [] →
      ((L.foldl (fun acc f => ((shutil.move acc.1 (src ++ [f]) dst).1,
        acc.2 ++ [(shutil.move acc.1 (src ++ [f]) dst).2])) (g, ops)).2).filter
        TransportOp.isRetrieval = [] by
    exact h _ fs [] rfl
  intro L
  induction L with
  | nil => intro g ops h; exact h
  | cons u us ih =>
    intro g ops h
    simp only [List.foldl_cons]
    refine ih _ _ ?_
    rw [List.filter_append, h]
    simp [shutil.move, TransportOp.isRetrieval, List.filter]

/-- C2 (amended): for every registered dataset name except cityscapes
(whose retrieval step is disabled in the code) and every supported split,
calling `acquire(name, split)` twice in sequence from the cold initial
state performs retrieval exactly once, and the second call invokes zero
Transport Adapter operations. -/
theorem acquire_twice_single_retrieval :
    ∀ remote : Remote, ∀ p ∈ AVAILABLE_DATASETS, p.1 ≠ "cityscapes" →
      ∀ split : Option String, validSplit p.2 split = true →
        (((acquireTwiceOps remote p.1 split (initFS p.1)).1 ++
            (acquireTwiceOps remote p.1 split (initFS p.1)).2).filter
          TransportOp.isRetrieval).length = 1 ∧
        (acquireTwiceOps remote p.1 split (initFS p.1)).2 = [] := by
  intro remote p hp hname split hok
  simp only [AVAILABLE_DATASETS, List.mem_cons, List.not_mem_nil, or_false] at hp
  rcases hp with rfl | rfl | rfl | rfl | rfl | rfl | rfl | rfl | rfl
  · -- quickstart
    cases split with
    | some sp => simp [validSplit, ZooDatasetStrategy.supported_splits] at hok
    | none =>
      have hlook : getZooDataset ("quickstart") =
          some ZooDatasetStrategy.quickstart := by decide
      have hmiss : (initFS ("quickstart")).existsNode
          (datasetDirFor ("quickstart") none) = false := by decide
      simp only [acquireTwiceOps]
      rw [acquire_miss hlook (by decide) hmiss]
      simp only [ZooDatasetStrategy.download_and_prepare]
      rw [(quickstart_parts remote ((initFS ("quickstart")).ensurePath
            (scratchDirFor ("quickstart"))) (datasetDirFor ("quickstart") none)
            (scratchDirFor ("quickstart"))).1,
          (quickstart_parts remote _ _ _).2]
      have hhit : ((_move_dir (extract_zip ((scratchDirFor ("quickstart")) ++
            ["dataset.zip"]) remote.quickstartZip
            (((initFS ("quickstart")).ensurePath
              (scratchDirFor ("quickstart"))).ensurePath
              ((scratchDirFor ("quickstart")) ++ ["dataset.zip"]))).1
            ((scratchDirFor ("quickstart")) ++ ["quickstart"])
            (datasetDirFor ("quickstart") none)).1).existsNode
          (datasetDirFor ("quickstart") none) = true := by
        refine existsNode_iff.mpr (mem_move_dir_of_not_le ?_ (by decide))
        simp only [extract_zip]
        refine mem_ensureAll.mpr (Or.inr ?_)
        simp only [FS.removeSubtree]
        exact List.mem_filter.mpr ⟨by decide, by decide⟩
      rw [acquire_hit hlook (by decide) hhit]
      constructor
      · simp [List.filter_append, move_dir_ops_not_retrieval,
          TransportOp.isRetrieval, List.filter_cons]
      · rfl
  · -- quickstart-video
    cases split with
    | some sp => simp [validSplit, ZooDatasetStrategy.supported_splits] at hok
    | none =>
      have hlook : getZooDataset ("quickstart-video") =
          some ZooDatasetStrategy.quickstartVideo := by decide
      have hmiss : (initFS ("quickstart-video")).existsNode
          (datasetDirFor ("quickstart-video") none) = false := by decide
      simp only [acquireTwiceOps]
      rw [acquire_miss hlook (by decide) hmiss]
      simp only [ZooDatasetStrategy.download_and_prepare]
      rw [(videoQuickstart_parts remote ((initFS ("quickstart-video")).ensurePath
            (scratchDirFor ("quickstart-video")))
            (datasetDirFor ("quickstart-video") none)
            (scratchDirFor ("quickstart-video"))).1,
          (videoQuickstart_parts remote _ _ _).2]
      have hhit : ((_move_dir (extract_zip ((scratchDirFor ("quickstart-video")) ++
            ["dataset.zip"]) remote.quickstartVideoZip
            (((initFS ("quickstart-video")).ensurePath
              (scratchDirFor ("quickstart-video"))).ensurePath
              ((scratchDirFor ("quickstart-video")) ++ ["dataset.zip"]))).1
            ((scratchDirFor ("quickstart-video")) ++ ["quickstart-video"])
            (datasetDirFor ("quickstart-video") none)).1).existsNode
          (datasetDirFor ("quickstart-video") none) = true := by
        refine existsNode_iff.mpr (mem_move_dir_of_not_le ?_ (by decide))
        simp only [extract_zip]
        refine mem_ensureAll.mpr (Or.inr ?_)
        simp only [FS.removeSubtree]
        exact List.mem_filter.mpr ⟨by decide, by decide⟩
      rw [acquire_hit hlook (by decide) hhit]
      constructor
      · simp [List.filter_append, move_dir_ops_not_retrieval,
          TransportOp.isRetrieval, List.filter_cons]
      · rfl
  · -- coco-2014-segmentation
    cases split with
    | none => simp [validSplit, ZooDatasetStrategy.supported_splits] at hok
    | some sp =>
      have hmem : sp ∈ (["test", "train", "validation"] : List String) := by
        simpa [validSplit, ZooDatasetStrategy.supported_splits] using hok
      simp only [List.mem_cons, List.not_mem_nil, or_false] at hmem
      rcases hmem with rfl | rfl | rfl <;>
        simp +decide [acquireTwiceOps, acquire, getZooDataset, AVAILABLE_DATASETS,
          List.lookup, validSplit, ZooDatasetStrategy.supported_splits,
          datasetDirFor, scratchDirFor, initFS, zooRoot, Option.toList,
          ZooDatasetStrategy.download_and_prepare,
          COCO2014Dataset.download_and_prepare, cocoDownloadAndPrepareCommon,
          download_coco_dataset_split, etau_move_dir, etau_move_file,
          load_coco_detection_annotations, FS.ensurePath, FS.ensureAll,
          FS.addNodes, FS.empty,
          FS.existsNode, FS.moveSubtree, FS.removeSubtree, renamePath, pathChain,
          pathLe, List.find?, List.drop, TransportOp.isRetrieval, List.filter,
          List.dropLast]
  · -- coco-2017-segmentation
    cases split with
    | none => simp [validSplit, ZooDatasetStrategy.supported_splits] at hok
    | some sp =>
      have hmem : sp ∈ (["test", "train", "validation"] : List String) := by
        simpa [validSplit, ZooDatasetStrategy.supported_splits] using hok
      simp only [List.mem_cons, List.not_mem_nil, or_false] at hmem
      rcases hmem with rfl | rfl | rfl <;>
        simp +decide [acquireTwiceOps, acquire, getZooDataset, AVAILABLE_DATASETS,
          List.lookup, validSplit, ZooDatasetStrategy.supported_splits,
          datasetDirFor, scratchDirFor, initFS, zooRoot, Option.toList,
          ZooDatasetStrategy.download_and_prepare,
          COCO2017Dataset.download_and_prepare, cocoDownloadAndPrepareCommon,
          download_coco_dataset_split, etau_move_dir, etau_move_file,
          load_coco_detection_annotations, FS.ensurePath, FS.ensureAll,
          FS.addNodes, FS.empty,
          FS.existsNode, FS.moveSubtree, FS.removeSubtree, renamePath, pathChain,
          pathLe, List.find?, List.drop, TransportOp.isRetrieval, List.filter,
          List.dropLast]
  · -- lfw
    cases split with
    | none => simp [validSplit, ZooDatasetStrategy.supported_splits] at hok
    | some sp =>
      have hmem : sp ∈ (["test", "train"] : List String) := by
        simpa [validSplit, ZooDatasetStrategy.supported_splits] using hok
      simp only [List.mem_cons, List.not_mem_nil, or_false] at hmem
      rcases hmem with rfl | rfl <;>
        simp +decide [acquireTwiceOps, acquire, getZooDataset, AVAILABLE_DATASETS,
          List.lookup, validSplit, ZooDatasetStrategy.supported_splits,
          datasetDirFor, scratchDirFor, initFS, zooRoot, Option.toList,
          ZooDatasetStrategy.download_and_prepare,
          LabeledFacesInTheWildDataset.download_and_prepare, download_lfw_dataset,
          bundlePaths, importerClasses, importerNumSamples,
          ImageClassificationDirectoryTreeImporter.get_classes,
          ImageClassificationDirectoryTreeImporter.get_num_samples,
          FS.ensurePath, FS.ensureAll, FS.empty, FS.existsNode, pathChain,
          TransportOp.isRetrieval, List.filter, List.dropLast]
  · exact absurd rfl hname
  · -- bdd100k
    cases split with
    | none => simp [validSplit, ZooDatasetStrategy.supported_splits] at hok
    | some sp =>
      have hmem : sp ∈ (["train", "validation", "test"] : List String) := by
        simpa [validSplit, ZooDatasetStrategy.supported_splits] using hok
      simp only [List.mem_cons, List.not_mem_nil, or_false] at hmem
      rcases hmem with rfl | rfl | rfl <;>
        simp +decide [acquireTwiceOps, acquire, getZooDataset, AVAILABLE_DATASETS,
          List.lookup, validSplit, ZooDatasetStrategy.supported_splits,
          datasetDirFor, scratchDirFor, initFS, zooRoot, Option.toList,
          ZooDatasetStrategy.download_and_prepare,
          BDD100KDataset.download_and_prepare, wrangle_bdd100k_download,
          bundlePaths, importerClasses, importerNumSamples,
          BDDDatasetImporter.get_num_samples, Option.getD,
          FS.ensurePath, FS.ensureAll, FS.empty, FS.existsNode, pathChain,
          TransportOp.isRetrieval, List.filter, List.dropLast]
  · -- hmdb51
    cases split with
    | none => simp [validSplit, ZooDatasetStrategy.supported_splits] at hok
    | some sp =>
      have hmem : sp ∈ (["train", "test", "other"] : List String) := by
        simpa [validSplit, ZooDatasetStrategy.supported_splits] using hok
      simp only [List.mem_cons, List.not_mem_nil, or_false] at hmem
      rcases hmem with rfl | rfl | rfl <;>
        simp +decide [acquireTwiceOps, acquire, getZooDataset, AVAILABLE_DATASETS,
          List.lookup, validSplit, ZooDatasetStrategy.supported_splits,
          datasetDirFor, scratchDirFor, initFS, zooRoot, Option.toList,
          ZooDatasetStrategy.download_and_prepare,
          HMDB51Dataset.download_and_prepare, download_hmdb51_dataset,
          bundlePaths, importerClasses, importerNumSamples,
          VideoClassificationDirectoryTreeImporter.get_classes,
          VideoClassificationDirectoryTreeImporter.get_num_samples,
          FS.ensurePath, FS.ensureAll, FS.empty, FS.existsNode, pathChain,
          TransportOp.isRetrieval, List.filter, List.dropLast]
  · -- ucf101
    cases split with
    | none => simp [validSplit, ZooDatasetStrategy.supported_splits] at hok
    | some sp =>
      have hmem : sp ∈ (["train", "test"] : List String) := by
        simpa [validSplit, ZooDatasetStrategy.supported_splits] using hok
      simp only [List.mem_cons, List.not_mem_nil, or_false] at hmem
      rcases hmem with rfl | rfl <;>
        simp +decide [acquireTwiceOps, acquire, getZooDataset, AVAILABLE_DATASETS,
          List.lookup, validSplit, ZooDatasetStrategy.supported_splits,
          datasetDirFor, scratchDirFor, initFS, zooRoot, Option.toList,
          ZooDatasetStrategy.download_and_prepare,
          UCF101Dataset.download_and_prepare, download_ucf101_dataset,
          bundlePaths, importerClasses, importerNumSamples,
          VideoClassificationDirectoryTreeImporter.get_classes,
          VideoClassificationDirectoryTreeImporter.get_num_samples,
          FS.ensurePath, FS.ensureAll, FS.empty, FS.existsNode, pathChain,
          TransportOp.isRetrieval, List.filter, List.dropLast]

/-- Witness for C2 (amended): the theorem applied to lfw's train split
with the concrete remote. -/
theorem acquire_twice_single_retrieval_witness :
    (((acquireTwiceOps remote0 ("lfw") (some ("train")) (initFS ("lfw"))).1 ++
        (acquireTwiceOps remote0 ("lfw") (some ("train")) (initFS ("lfw"))).2).filter
      TransportOp.isRetrieval).length = 1 ∧
    (acquireTwiceOps remote0 ("lfw") (some ("train")) (initFS ("lfw"))).2 = [] :=
  acquire_twice_single_retrieval remote0 (("lfw"), .lfw) (by decide) (by decide)
    (some ("train")) (by decide)

/-!  Sample-count round-trip lemmas (C5). -/

theorem prep_num_eq_scan (st : ZooDatasetStrategy) (remote : Remote) (fs : FS)
    (dd sd : FsPath) (split : Option String) (fs' : FS) (ops : List TransportOp)
    (t : DatasetType) (num : Nat) (cls : Option (List String))
    (hst : st ≠ .coco2014 ∧ st ≠ .coco2017)
    (hshape : ∀ s, split = some s → dd.dropLast ++ [s] = dd)
    (hacq : st.download_and_prepare remote fs dd sd split = (fs', ops, .ok (t, num, cls))) :
    num = fs'.countFilesUnder dd := by
  cases st with
  | coco2014 => exact absurd rfl hst.1
  | coco2017 => exact absurd rfl hst.2
  | quickstart =>
    simp only [ZooDatasetStrategy.download_and_prepare,
      QuickstartDataset.download_and_prepare,
      FiftyOneDatasetImporter.get_classes,
      FiftyOneDatasetImporter.get_num_samples, importerClasses,
      importerNumSamples] at hacq
    split at hacq <;> (try split at hacq) <;> (try split at hacq) <;>
      (try split at hacq) <;> simp_all [ite_eq_iff]
  | quickstartVideo =>
    simp only [ZooDatasetStrategy.download_and_prepare,
      VideoQuickstartDataset.download_and_prepare,
      FiftyOneVideoLabelsDatasetImporter.get_num_samples,
      importerNumSamples] at hacq
    split at hacq <;> (try split at hacq) <;> simp_all [ite_eq_iff]
  | lfw =>
    cases split with
    | none => simp [ZooDatasetStrategy.download_and_prepare] at hacq
    | some s =>
      have hdd := hshape s rfl
      simp only [ZooDatasetStrategy.download_and_prepare,
        LabeledFacesInTheWildDataset.download_and_prepare,
        ImageClassificationDirectoryTreeImporter.get_classes,
        ImageClassificationDirectoryTreeImporter.get_num_samples,
        importerClasses, importerNumSamples, hdd] at hacq
      split at hacq <;> (try split at hacq) <;> (try split at hacq) <;>
        (try split at hacq) <;> (try split at hacq) <;> (try split at hacq) <;>
        simp_all [ite_eq_iff]
  | cityscapes a b c =>
    cases split with
    | none => simp [ZooDatasetStrategy.download_and_prepare] at hacq
    | some s =>
      have hdd := hshape s rfl
      simp only [ZooDatasetStrategy.download_and_prepare,
        CityscapesDataset.download_and_prepare,
        FiftyOneDatasetImporter.get_classes,
        FiftyOneDatasetImporter.get_num_samples,
        importerClasses, importerNumSamples, hdd] at hacq
      split at hacq <;> (try split at hacq) <;> (try split at hacq) <;>
        (try split at hacq) <;> (try split at hacq) <;> (try split at hacq) <;>
        (try split at hacq) <;> simp_all [ite_eq_iff]
  | bdd100k sdir cf =>
    cases split with
    | none => simp [ZooDatasetStrategy.download_and_prepare] at hacq
    | some s =>
      have hdd := hshape s rfl
      simp only [ZooDatasetStrategy.download_and_prepare,
        BDD100KDataset.download_and_prepare,
        BDDDatasetImporter.get_num_samples, importerNumSamples, hdd] at hacq
      split at hacq <;> (try split at hacq) <;> (try split at hacq) <;>
        (try split at hacq) <;> simp_all [ite_eq_iff]
  | hmdb51 f =>
    cases split with
    | none => simp [ZooDatasetStrategy.download_and_prepare] at hacq
    | some s =>
      have hdd := hshape s rfl
      simp only [ZooDatasetStrategy.download_and_prepare,
        HMDB51Dataset.download_and_prepare,
        VideoClassificationDirectoryTreeImporter.get_classes,
        VideoClassificationDirectoryTreeImporter.get_num_samples,
        importerClasses, importerNumSamples, hdd] at hacq
      split at hacq <;> (try split at hacq) <;> (try split at hacq) <;>
        (try split at hacq) <;> (try split at hacq) <;> simp_all [ite_eq_iff]
  | ucf101 f =>
    cases split with
    | none => simp [ZooDatasetStrategy.download_and_prepare] at hacq
    | some s =>
      have hdd := hshape s rfl
      simp only [ZooDatasetStrategy.download_and_prepare,
        UCF101Dataset.download_and_prepare,
        VideoClassificationDirectoryTreeImporter.get_classes,
        VideoClassificationDirectoryTreeImporter.get_num_samples,
        importerClasses, importerNumSamples, hdd] at hacq
      split at hacq <;> (try split at hacq) <;> (try split at hacq) <;>
        (try split at hacq) <;> (try split at hacq) <;> simp_all [ite_eq_iff]

theorem coco_cold_scan (anno : CocoAnno) (name sp : String) (hnd : anno.images.Nodup)
    (hsp1 : ¬(sp = "tmp-download"))
    (hsp3 : ¬(("images-" ++ sp) = ("labels-" ++ sp ++ ".json"))) :
    (cocoColdFS anno name sp).countFilesUnder [zooRoot, name, sp, "data"] =
      anno.images.length := by
  have hnodes : (cocoColdFS anno name sp).nodes =
      ["zoo"] :: ["zoo", name] :: ["zoo", name, sp] :: ["zoo"] :: ["zoo", name] ::
      ["zoo", name, sp] :: ["zoo", name, sp, "data"] :: ["zoo"] :: ["zoo", name] ::
      ["zoo", name, "tmp-download"] :: ["zoo", name, sp, "labels.json"] ::
      (anno.images.map (fun i => ["zoo", name, sp, "data", i]) ++
        [["zoo"], ["zoo", name], ["zoo", name, "tmp-download"],
         ["zoo", name, sp, "data"], ["zoo"], ["zoo", name],
         ["zoo", name, "tmp-download"]]) := by
    simp [cocoColdFS, FS.moveSubtree, FS.ensurePath, FS.addNodes, FS.empty,
      pathChain, renamePath, pathLe, zooRoot, hsp1, Ne.symm hsp1, hsp3,
      Function.comp_def]
  simp only [FS.countFilesUnder, FS.isLeaf, hnodes, zooRoot]
  simp [List.filter_cons, List.filter_append, pathLe, hsp1, Ne.symm hsp1, hsp3]
  rw [List.filter_map]
  rw [List.filter_eq_self.mpr]
  · rw [List.dedup_eq_self.mpr]
    · exact List.length_map _ _
    · refine hnd.map ?_
      intro a b hab
      simpa using hab
  · intro i hi
    simp [pathLe, hsp1, Ne.symm hsp1]
    exact fun a _ h => h.symm

theorem lookup_name_eq {name : String} {st : ZooDatasetStrategy}
    (h : getZooDataset name = some st) : name = st.name := by
  simp only [getZooDataset, AVAILABLE_DATASETS, List.lookup] at h
  repeat' split at h
  all_goals simp_all
  all_goals (subst h; rfl)

theorem coco2014_cold_acquire (remote : Remote) (sp : String)
    (hsp : sp ∈ (["test", "train", "validation"] : List String)) :
    (acquire remote ("coco-2014-segmentation") (some sp) FS.empty).1 =
      cocoColdFS (remote.coco2014Anno sp) ("coco-2014-segmentation") sp ∧
    (acquire remote ("coco-2014-segmentation") (some sp) FS.empty).2.2 =
      .ok (some (.cocoDetectionDataset, (remote.coco2014Anno sp).images.length,
        some (remote.coco2014Anno sp).classes)) := by
  simp only [List.mem_cons, List.not_mem_nil, or_false] at hsp
  rcases hsp with rfl | rfl | rfl <;>
    constructor <;>
      simp +decide [acquire, getZooDataset, AVAILABLE_DATASETS, List.lookup,
        validSplit, ZooDatasetStrategy.supported_splits, datasetDirFor,
        scratchDirFor, initFS, zooRoot, Option.toList,
        ZooDatasetStrategy.download_and_prepare,
        COCO2014Dataset.download_and_prepare, cocoDownloadAndPrepareCommon,
        download_coco_dataset_split, etau_move_dir, etau_move_file,
        load_coco_detection_annotations, cocoColdFS, FS.ensurePath, FS.addNodes,
        FS.empty, FS.existsNode, FS.moveSubtree, renamePath, pathChain, pathLe,
        List.find?, List.drop, List.dropLast, Except.map]

theorem coco2017_cold_acquire (remote : Remote) (sp : String)
    (hsp : sp ∈ (["test", "train", "validation"] : List String)) :
    (acquire remote ("coco-2017-segmentation") (some sp) FS.empty).1 =
      cocoColdFS (remote.coco2017Anno sp) ("coco-2017-segmentation") sp ∧
    (acquire remote ("coco-2017-segmentation") (some sp) FS.empty).2.2 =
      .ok (some (.cocoDetectionDataset, (remote.coco2017Anno sp).images.length,
        some (remote.coco2017Anno sp).classes)) := by
  simp only [List.mem_cons, List.not_mem_nil, or_false] at hsp
  rcases hsp with rfl | rfl | rfl <;>
    constructor <;>
      simp +decide [acquire, getZooDataset, AVAILABLE_DATASETS, List.lookup,
        validSplit, ZooDatasetStrategy.supported_splits, datasetDirFor,
        scratchDirFor, initFS, zooRoot, Option.toList,
        ZooDatasetStrategy.download_and_prepare,
        COCO2017Dataset.download_and_prepare, cocoDownloadAndPrepareCommon,
        download_coco_dataset_split, etau_move_dir, etau_move_file,
        load_coco_detection_annotations, cocoColdFS, FS.ensurePath, FS.addNodes,
        FS.empty, FS.existsNode, FS.moveSubtree, renamePath, pathChain, pathLe,
        List.find?, List.drop, List.dropLast, Except.map]

/-- C5: after every successful fresh `acquire`, the returned sample count
equals the count an independent directory scan of the produced on-disk
layout yields.  For every non-COCO strategy the returned count is the
scan of the split's dataset directory in the final disk state; for the
two COCO strategies, whose returned count is the length of the images
list parsed from the moved labels JSON, a cold acquire returns that
length and it equals the number of sample files placed in the `data`
directory. -/
theorem acquire_count_matches_scan :
    (∀ (remote : Remote) (fs : FS) (name : String) (split : Option String)
        (fs' : FS) (ops : List TransportOp) (t : DatasetType) (num : Nat)
        (cls : Option (List String)),
      acquire remote name split fs = (fs', ops, .ok (some (t, num, cls))) →
      name ∉ (["coco-2014-segmentation", "coco-2017-segmentation"] : List String) →
      num = fs'.countFilesUnder (datasetDirFor name split)) ∧
    (∀ (remote : Remote) (sp : String),
      sp ∈ (["test", "train", "validation"] : List String) →
      (remote.coco2014Anno sp).images.Nodup →
      (acquire remote ("coco-2014-segmentation") (some sp) FS.empty).2.2 =
        .ok (some (.cocoDetectionDataset, (remote.coco2014Anno sp).images.length,
          some (remote.coco2014Anno sp).classes)) ∧
      (acquire remote ("coco-2014-segmentation") (some sp) FS.empty).1.countFilesUnder
          [zooRoot, "coco-2014-segmentation", sp, "data"] =
        (remote.coco2014Anno sp).images.length) ∧
    (∀ (remote : Remote) (sp : String),
      sp ∈ (["test", "train", "validation"] : List String) →
      (remote.coco2017Anno sp).images.Nodup →
      (acquire remote ("coco-2017-segmentation") (some sp) FS.empty).2.2 =
        .ok (some (.cocoDetectionDataset, (remote.coco2017Anno sp).images.length,
          some (remote.coco2017Anno sp).classes)) ∧
      (acquire remote ("coco-2017-segmentation") (some sp) FS.empty).1.countFilesUnder
          [zooRoot, "coco-2017-segmentation", sp, "data"] =
        (remote.coco2017Anno sp).images.length) := by
  refine ⟨?_, ?_, ?_⟩
  · intro remote fs name split fs' ops t num cls hacq hncoco
    unfold acquire at hacq
    cases hlk : getZooDataset name with
    | none => rw [hlk] at hacq; simp at hacq
    | some st =>
      rw [hlk] at hacq
      dsimp only at hacq
      by_cases hok : validSplit st split = true
      · rw [if_pos hok] at hacq
        by_cases hhit : fs.existsNode (datasetDirFor name split) = true
        · rw [if_pos hhit] at hacq
          simp at hacq
        · rw [if_neg hhit] at hacq
          rw [Prod.mk.injEq, Prod.mk.injEq] at hacq
          obtain ⟨h1, h2, h3⟩ := hacq
          cases hr : (st.download_and_prepare remote
              (fs.ensurePath (scratchDirFor name)) (datasetDirFor name split)
              (scratchDirFor name) split).2.2 with
          | error e => rw [hr] at h3; simp [Except.map] at h3
          | ok v =>
            rw [hr] at h3
            simp only [Except.map, Except.ok.injEq, Option.some.injEq] at h3
            subst h3
            have hname := lookup_name_eq hlk
            have hst1 : st ≠ .coco2014 := by
              intro hc
              subst hc
              exact hncoco (by rw [hname]; decide)
            have hst2 : st ≠ .coco2017 := by
              intro hc
              subst hc
              exact hncoco (by rw [hname]; decide)
            have hshape : ∀ s, split = some s →
                (datasetDirFor name split).dropLast ++ [s] =
                  datasetDirFor name split := by
              intro s hs
              subst hs
              simp [datasetDirFor, Option.toList, List.dropLast_concat]
            apply prep_num_eq_scan st remote (fs.ensurePath (scratchDirFor name))
              (datasetDirFor name split) (scratchDirFor name) split fs' ops t num
              cls ⟨hst1, hst2⟩ hshape
            rw [← h1, ← h2, ← hr]
      · rw [if_neg hok] at hacq
        simp at hacq
  · intro remote sp hsp hnd
    obtain ⟨hfs, hres⟩ := coco2014_cold_acquire remote sp hsp
    refine ⟨hres, ?_⟩
    rw [hfs]
    refine coco_cold_scan _ _ _ hnd ?_ ?_ <;>
    · simp only [List.mem_cons, List.not_mem_nil, or_false] at hsp
      rcases hsp with rfl | rfl | rfl <;> decide
  · intro remote sp hsp hnd
    obtain ⟨hfs, hres⟩ := coco2017_cold_acquire remote sp hsp
    refine ⟨hres, ?_⟩
    rw [hfs]
    refine coco_cold_scan _ _ _ hnd ?_ ?_ <;>
    · simp only [List.mem_cons, List.not_mem_nil, or_false] at hsp
      rcases hsp with rfl | rfl | rfl <;> decide

/-- Witness for C5: the COCO-2014 conjunct applied to the concrete remote
and the train split. -/
theorem acquire_count_matches_scan_witness :
    (acquire remote0 ("coco-2014-segmentation") (some ("train")) FS.empty).2.2 =
      .ok (some (.cocoDetectionDataset,
        (remote0.coco2014Anno ("train")).images.length,
        some (remote0.coco2014Anno ("train")).classes)) ∧
    (acquire remote0 ("coco-2014-segmentation")
        (some ("train")) FS.empty).1.countFilesUnder
        [zooRoot, "coco-2014-segmentation", "train", "data"] =
      (remote0.coco2014Anno ("train")).images.length :=
  acquire_count_matches_scan.2.1 remote0 ("train") (by decide) (by decide)
